import Mathlib

set_option maxRecDepth 16000

/-!
# Verification of the PointOfSales declarative UI control framework core

Shallow embedding, in Lean 4, of the core subsystems of the repository's
client framework:

* `StateManager`   (src/client/src/core/state-manager.js)
* `EventHandler` / `ContextRenderer` (src/client/src/core/event-handler.js)
* `ControlFactory` (src/client/src/core/control-factory.js)
* `Control` / `Validation` (src/client/src/controls/base-control.js)

JavaScript values are modelled by the inductive `JSVal`; objects are
insertion-ordered association lists (JS object/Map iteration order).
Stateful operations are modelled as explicit state-passing functions.
Subscriber / event-handler callbacks are opaque to the store, so the
embedding records each callback invocation in an explicit notification
trace (`Note`, `InvokeRec`, ...): "callback `s` is invoked with arguments
`(v, old, k)`" becomes a trace element.  Operations that can throw are
modelled by returning the state reached at the throw point together with
an `Option` error, so that partial effects of an aborted operation remain
observable.

Modelling notes (environment features outside a pure embedding):
* `Date.now()` timestamps and `Math.random()`-based id generation are
  nondeterministic environment inputs; functions that consume them take
  the generated value (or a generator function) as an explicit parameter,
  and history entries omit timestamps.
* JS numbers inside control definitions and contexts are modelled as
  integers (`JSVal.num : Int`); no claim below depends on non-integral
  definition/context numbers.  The restricted-arithmetic expression
  evaluator is modelled over exact rationals (`ℚ`); JS float rounding and
  `1/0 = Infinity` are not reproduced (division by zero is an evaluation
  error here), and no claim depends on the numeric value of an evaluated
  expression.
* `console.log`-style diagnostics and DOM display updates
  (`updateContextDisplay`) have no effect on the modelled state and are
  omitted.
-/

/-- Model of a JavaScript value (the subset the core manipulates). -/
inductive JSVal where
  | undefined
  | null
  | bool (b : Bool)
  | num (n : Int)
  | str (s : String)
  | arr (xs : List JSVal)
  | obj (fields : List (String × JSVal))

namespace JSVal

/- Structural value equality test, used where the source compares values
with `!==`.  (JS `!==` on two objects is reference inequality; the claims
below only ever compare primitive values, where `!==` agrees with
structural equality. -/
mutual
/-- See the comment above. -/
def beq : JSVal → JSVal → Bool
  | .undefined, .undefined => true
  | .null, .null => true
  | .bool a, .bool b => a == b
  | .num a, .num b => a == b
  | .str a, .str b => a == b
  | .arr xs, .arr ys => beqList xs ys
  | .obj xs, .obj ys => beqFields xs ys
  | _, _ => false
def beqList : List JSVal → List JSVal → Bool
  | [], [] => true
  | x :: xs, y :: ys => beq x y && beqList xs ys
  | _, _ => false
def beqFields : List (String × JSVal) → List (String × JSVal) → Bool
  | [], [] => true
  | (k, x) :: xs, (l, y) :: ys => k == l && beq x y && beqFields xs ys
  | _, _ => false
end

/-- JS truthiness (`if (v)`): `undefined`, `null`, `false`, `0`, `""` are
falsy; every object/array is truthy. -/
def truthy : JSVal → Bool
  | undefined => false
  | null => false
  | bool b => b
  | num n => n != 0
  | str s => s ≠ ""
  | arr _ => true
  | obj _ => true

end JSVal

/-- First-match association-list lookup (JS property access on an object
whose model keeps keys unique, in insertion order). -/
def jsLookup (fields : List (String × JSVal)) (k : String) : Option JSVal :=
  (fields.find? (fun p => p.1 = k)).map (fun p => p.2)

/-- JS property read: `o[k]` is `undefined` when the key is absent. -/
def jsGet (fields : List (String × JSVal)) (k : String) : JSVal :=
  (jsLookup fields k).getD .undefined

/-- JS property write `o[k] = v`: overwrite in place (keeping the key's
insertion position) or append a new key. -/
def jsSet (fields : List (String × JSVal)) (k : String) (v : JSVal) :
    List (String × JSVal) :=
  if (fields.find? (fun p => p.1 = k)).isSome then
    fields.map (fun p => if p.1 = k then (k, v) else p)
  else fields ++ [(k, v)]

/-- `Object.keys`, in insertion order. -/
def jsKeys (fields : List (String × JSVal)) : List String :=
  fields.map (fun p => p.1)

/-- `o.hasOwnProperty(k)` for an object model. -/
def jsHasKey (fields : List (String × JSVal)) (k : String) : Bool :=
  (jsLookup fields k).isSome

/- `Array.prototype.toString` and template-literal coercion of a value
(`${v}`): strings unquoted, arrays joined by commas, plain objects as
`[object Object]`. -/
mutual
/-- See the comment above. -/
def jsToString : JSVal → String
  | .undefined => "undefined"
  | .null => "null"
  | .bool b => if b then "true" else "false"
  | .num n => toString n
  | .str s => s
  | .arr xs => String.intercalate "," (jsToStringList xs)
  | .obj _ => "[object Object]"
def jsToStringList : List JSVal → List String
  | [] => []
  | x :: xs => jsToString x :: jsToStringList xs
end

/-- Chars of `s`, first occurrence test: JS `String.includes(pat)`. -/
def containsSubstr (s pat : String) : Bool :=
  go s.data pat.data
where
  go : List Char → List Char → Bool
  | _, [] => true
  | [], _ :: _ => false
  | c :: cs, p => if List.isPrefixOf p (c :: cs) then true else go cs p

/-- JS `Set` built from a list: deduplicate keeping first occurrences
(JS `Set` iteration order is insertion order). -/
def dedupFirst (l : List String) : List String :=
  go [] l
where
  go (seen : List String) : List String → List String
  | [] => []
  | k :: rest =>
    if k ∈ seen then go seen rest else k :: go (k :: seen) rest

/-! ## StateManager (src/client/src/core/state-manager.js)

Per-key subscribers are identified by `Nat` ids kept in subscription
order per key; global subscribers likewise.  A mutation returns the new
store state together with the trace of callback invocations it performs
synchronously before returning (`notifyStateChange` then
`notifyGlobalListeners`, in source order). -/

namespace StateManager

/-- Payload handed to a global listener (the object literal passed to
`notifyGlobalListeners`). -/
inductive GEvent where
  | setStateEv (key : String) (value oldValue : JSVal)
  | importStateEv (oldState newState : List (String × JSVal))
  | restoreSnapshotEv (oldState newState : List (String × JSVal))

/-- One recorded callback invocation: per-key subscribers receive
`(newValue, oldValue, key)`, global subscribers receive the event
object. -/
inductive Note where
  | perKey (sub : Nat) (value oldValue : JSVal) (key : String)
  | global (sub : Nat) (ev : GEvent)

/-- History log entry (timestamps omitted, see module header). -/
inductive HistEntry where
  | setStateH (key : String) (oldValue newValue : JSVal)
  | importStateH (oldState newState : List (String × JSVal))
  | restoreSnapshotH (oldState newState : List (String × JSVal))

/-- The `StateManager` static fields the modelled operations touch. -/
structure SMState where
  state : List (String × JSVal)
  listeners : List (String × List Nat)
  globalListeners : List Nat
  history : List HistEntry

def maxHistorySize : Nat := 50

/-- `this.state[key]` (`undefined` when absent). -/
def stGet (st : List (String × JSVal)) (k : String) : JSVal := jsGet st k

/-- The subscriber list for a key, in subscription order. -/
def subsFor (sm : SMState) (k : String) : List Nat :=
  ((sm.listeners.find? (fun p => p.1 = k)).map (fun p => p.2)).getD []

/-- `addToHistory`: append, then evict the oldest entry past the cap. -/
def addToHistory (h : List HistEntry) (e : HistEntry) : List HistEntry :=
  let h2 := h ++ [e]
  if h2.length > maxHistorySize then h2.drop 1 else h2

/-- `notifyStateChange(key, value, oldValue)`: invoke every per-key
subscriber of `key`, in subscription order (listener exceptions are
caught in the source, so every subscriber in the list is invoked). -/
def notifyStateChange (sm : SMState) (k : String) (v oldV : JSVal) :
    List Note :=
  (subsFor sm k).map (fun s => Note.perKey s v oldV k)

/-- `notifyGlobalListeners(eventData)`: invoke every global subscriber in
subscription order (exceptions caught per listener). -/
def notifyGlobalListeners (sm : SMState) (ev : GEvent) : List Note :=
  sm.globalListeners.map (fun s => Note.global s ev)

/-- `StateManager.setState(key, value)`: write, log history, then notify
per-key subscribers followed by global subscribers — all before
returning. -/
def setState (sm : SMState) (k : String) (v : JSVal) :
    SMState × List Note :=
  let oldValue := stGet sm.state k
  let sm1 : SMState :=
    { sm with
      state := jsSet sm.state k v
      history := addToHistory sm.history (.setStateH k oldValue v) }
  (sm1, notifyStateChange sm1 k v oldValue ++
        notifyGlobalListeners sm1 (.setStateEv k v oldValue))

/-- `exportState()` payload / `importState` argument: `state` is `none`
when the `state` property is absent or falsy. -/
structure ExportData where
  state : Option (List (String × JSVal))

/-- `StateManager.importState(exportedData)`: replace the whole state and
notify per-key subscribers for `Object.keys(this.state)` — the keys of
the NEW state only — then global subscribers.  Returns success. -/
def importState (sm : SMState) (data : Option ExportData) :
    SMState × List Note × Bool :=
  match data with
  | none => (sm, [], false)
  | some d =>
    match d.state with
    | none => (sm, [], false)
    | some newSt =>
      let oldState := sm.state
      let sm1 : SMState :=
        { sm with
          state := newSt
          history := addToHistory sm.history (.importStateH oldState newSt) }
      (sm1,
       (jsKeys newSt).flatMap
         (fun k => notifyStateChange sm1 k (stGet newSt k) (stGet oldState k)) ++
       notifyGlobalListeners sm1 (.importStateEv oldState newSt),
       true)

/-- `createSnapshot()` payload / `restoreSnapshot` argument. -/
structure Snapshot where
  state : Option (List (String × JSVal))
  id : String

/-- `StateManager.restoreSnapshot(snapshot)`: replace the whole state and
notify per-key subscribers for the union
`new Set([...Object.keys(oldState), ...Object.keys(this.state)])`
(old keys first, then new keys not already seen), then global
subscribers. -/
def restoreSnapshot (sm : SMState) (snap : Option Snapshot) :
    SMState × List Note × Bool :=
  match snap with
  | none => (sm, [], false)
  | some s =>
    match s.state with
    | none => (sm, [], false)
    | some newSt =>
      let oldState := sm.state
      let sm1 : SMState :=
        { sm with
          state := newSt
          history := addToHistory sm.history (.restoreSnapshotH oldState newSt) }
      (sm1,
       (dedupFirst (jsKeys oldState ++ jsKeys newSt)).flatMap
         (fun k => notifyStateChange sm1 k (stGet newSt k) (stGet oldState k)) ++
       notifyGlobalListeners sm1 (.restoreSnapshotEv oldState newSt),
       true)

end StateManager

/-! ## ContextRenderer (src/client/src/core/event-handler.js, lines 333-756)

The template engine.  `render` applies four global-replace passes in
source order over the merged context:

1. `#\x7b(\w+)\x7d`  — bare variable, `#` syntax;
2. `$\x7b(\w+)\x7d`  — bare variable, `$` syntax;
3. `\x7b\x7b(\w+)\x7d\x7d` — bare variable, double-brace syntax;
4. `#\x7b(.+?)\x7d` — restricted arithmetic expression (non-greedy).

Each pass is modelled as a character-list scanner with exactly the JS
`String.replace(regexp, fn)` semantics: scan left to right, on a match
emit the callback result and continue after the match (replacements are
not rescanned), on a mismatch emit one character and advance by one. -/

namespace ContextRenderer

/-- JS regex `\w` (ASCII word character). -/
def isWordChar (c : Char) : Bool :=
  (('a' ≤ c && c ≤ 'z') || ('A' ≤ c && c ≤ 'Z') ||
   ('0' ≤ c && c ≤ '9') || c = '_')

/-- JS regex line terminators (which `.` does not match). -/
def isLineTerm (c : Char) : Bool :=
  c = '\n' || c = '\r' || c = ' ' || c = ' '

/-- JS regex `\s` (the whitespace characters relevant here; the rarer
Unicode space code points are included for the ones JS lists). -/
def isJsSpace (c : Char) : Bool :=
  c = ' ' || c = '\t' || c = '\n' || c = '\r' ||
  c = '\x0b' || c = '\x0c' || c = ' ' || c = ' ' ||
  (' ' ≤ c && c ≤ ' ') || c = ' ' || c = ' ' ||
  c = ' ' || c = ' ' || c = '　' || c = '﻿'

/-- `formatValue(value)`: `null`/`undefined` → `""`, integral numbers via
`toString` (context numbers are integral in this model, see header),
booleans as Yes/No, everything else via JS string coercion. -/
def formatValue : JSVal → String
  | .null => ""
  | .undefined => ""
  | .num n => toString n
  | .bool b => if b then "Yes" else "No"
  | v => jsToString v

/-- Round half away from zero (models `Number.toFixed` rounding on the
exact rational; float-representation edge cases are not reproduced). -/
def roundHalfAway (q : ℚ) : Int :=
  if 0 ≤ q then ⌊q + 1/2⌋ else -⌊(-q) + 1/2⌋

/-- Two-digit zero-padded rendering of `n < 100`. -/
def twoDigits (n : Nat) : String :=
  if n < 10 then "0" ++ toString n else toString n

/-- `formatValue` on the (rational) result of an evaluated expression:
integers via `toString`, otherwise `toFixed(2)`. -/
def formatNum (q : ℚ) : String :=
  if q.den = 1 then toString q.num
  else
    let r := roundHalfAway (q * 100)
    let sign := if r < 0 then "-" else ""
    sign ++ toString (r.natAbs / 100) ++ "." ++ twoDigits (r.natAbs % 100)

/-- JSON string escaping (the escapes relevant to the modelled values). -/
def jsonEscape (s : String) : String :=
  String.join (s.data.map (fun c =>
    if c = '"' then "\\\""
    else if c = '\\' then "\\\\"
    else if c = '\n' then "\\n"
    else if c = '\t' then "\\t"
    else if c = '\r' then "\\r"
    else String.mk [c]))

mutual
/-- `JSON.stringify(v)` as used for substitution into an expression
string; `undefined` at top level stringifies to `undefined` because the
JS code passes the result to `String.replace` as a replacement string,
which coerces it. -/
def jsonStringify : JSVal → String
  | .undefined => "undefined"
  | .null => "null"
  | .bool b => if b then "true" else "false"
  | .num n => toString n
  | .str s => "\"" ++ jsonEscape s ++ "\""
  | .arr xs => "[" ++ String.intercalate "," (jsonStringifyArr xs) ++ "]"
  | .obj fs => "\x7b" ++ String.intercalate "," (jsonStringifyFields fs) ++ "\x7d"
def jsonStringifyArr : List JSVal → List String
  | [] => []
  | .undefined :: xs => "null" :: jsonStringifyArr xs
  | x :: xs => jsonStringify x :: jsonStringifyArr xs
def jsonStringifyFields : List (String × JSVal) → List String
  | [] => []
  | (_, .undefined) :: fs => jsonStringifyFields fs
  | (k, v) :: fs =>
    ("\"" ++ jsonEscape k ++ "\":" ++ jsonStringify v) :: jsonStringifyFields fs
end

/-- `\x7b...this.context, ...customContext\x7d`: spread merge — context keys in
their order (values overridden by the custom context where present),
then custom keys not already present, in their order. -/
def mergeCtx (ctx custom : List (String × JSVal)) : List (String × JSVal) :=
  ctx.map (fun p => (p.1, (jsLookup custom p.1).getD p.2)) ++
  custom.filter (fun p => ¬ jsHasKey ctx p.1)

/-- One bare-variable pass (`o1 o2` is the two-character opener, `closeT`
the closing bracket sequence): greedy `\w+`, then the closer; a known
key is replaced by `formatValue`, an unknown one is left verbatim. -/
def replaceBare (o1 o2 : Char) (closeT : List Char)
    (ctx : List (String × JSVal)) (l : List Char) : List Char :=
  go l.length l
where
  /- Each scan step consumes at least one character, so `l.length` steps
  always suffice (the fuel argument only makes the structural recursion
  visible). -/
  go : Nat → List Char → List Char
  | _, [] => []
  | 0, l => l
  | _ + 1, [c] => [c]
  | f + 1, c1 :: c2 :: cs =>
    if c1 = o1 ∧ c2 = o2 then
      let w := cs.takeWhile isWordChar
      let after := cs.drop w.length
      if w ≠ [] ∧ List.isPrefixOf closeT after then
        let key := String.mk w
        let rep :=
          if jsHasKey ctx key then (formatValue (jsGet ctx key)).data
          else o1 :: o2 :: (w ++ closeT)
        rep ++ go f (after.drop closeT.length)
      else c1 :: go f (c2 :: cs)
    else c1 :: go f (c2 :: cs)

/-- Index of the closing `\x7d` for the non-greedy `#\x7b(.+?)\x7d` match: the
smallest `k ≥ 1` with `cs[k] = '\x7d'`, provided no line terminator occurs
in `cs[0..k-1]` (JS `.` does not match line terminators). -/
def findCloseIdx (cs : List Char) : Option Nat :=
  match cs with
  | [] => none
  | c :: rest => if isLineTerm c then none else go 1 rest
where
  go (i : Nat) : List Char → Option Nat
  | [] => none
  | r :: rs =>
    if r = '\x7d' then some i
    else if isLineTerm r then none
    else go (i + 1) rs

/-- Word-boundary test used by `\bkey\b`: wordness differs on the two
sides (a string edge counts as non-word). -/
def atBoundary (prev : Option Char) (c : Char) : Bool :=
  (match prev with | none => false | some p => isWordChar p) != isWordChar c

/-- Global replace of `new RegExp(`\bKEY\b`, 'g')` by a fixed string,
for a literal key `kh :: kt` (the code builds the pattern from context
key names; keys containing regex metacharacters are not modelled). -/
def replaceWB (kh : Char) (kt : List Char) (rep : List Char)
    (prev : Option Char) (l : List Char) : List Char :=
  go l.length prev l
where
  /- Fuel-structured as in `replaceBare.go`. -/
  go : Nat → Option Char → List Char → List Char
  | _, _, [] => []
  | 0, _, l => l
  | f + 1, prev, c :: rest =>
    let keyL := kh :: kt
    let lastK := kt.getLastD kh
    let after := (c :: rest).drop keyL.length
    if List.isPrefixOf keyL (c :: rest) && atBoundary prev kh &&
        (match after.head? with
         | some c2 => atBoundary (some lastK) c2
         | none => isWordChar lastK) then
      rep ++ go f (some lastK) after
    else c :: go f (some c) rest

/-- Substitute every context key (in `Object.keys` order) into the
expression, word-bounded, by its `JSON.stringify` (see
`evaluateExpression` in the source). -/
def substituteKeys (ctx : List (String × JSVal)) (s : List Char) :
    List Char :=
  ctx.foldl
    (fun acc p =>
      match p.1.data with
      | [] => acc
      | kh :: kt => replaceWB kh kt (jsonStringify p.2).data none acc)
    s

/-- A character allowed by the safety filter `^[\d\s+\-*/.()]+$`. -/
def isSafeChar (c : Char) : Bool :=
  c.isDigit || isJsSpace c || c = '+' || c = '-' || c = '*' || c = '/' ||
  c = '.' || c = '(' || c = ')'

/-- The safety filter itself (nonempty and all characters allowed). -/
def isSafeExpr (s : List Char) : Bool :=
  s ≠ [] && s.all isSafeChar

/-- Tokens of the restricted arithmetic grammar. -/
inductive Tok where
  | num (q : ℚ)
  | plus | minus | star | slash | lparen | rparen
deriving Repr, DecidableEq

/-- Lexer for the safe character subset.  Adjacent `--`/`++` lex as the
JS decrement/increment tokens, which are a syntax error in every
expression in this subset, so they are rejected here. -/
def lexArith (l : List Char) : Option (List Tok) :=
  go l.length l
where
  /- Fuel-structured: every step consumes at least one character. -/
  go : Nat → List Char → Option (List Tok)
  | _, [] => some []
  | 0, _ => none
  | f + 1, c :: cs =>
    if isJsSpace c then go f cs
    else if c = '+' then
      if cs.headD ' ' = '+' then none else (go f cs).map (Tok.plus :: ·)
    else if c = '-' then
      if cs.headD ' ' = '-' then none else (go f cs).map (Tok.minus :: ·)
    else if c = '*' then (go f cs).map (Tok.star :: ·)
    else if c = '/' then (go f cs).map (Tok.slash :: ·)
    else if c = '(' then (go f cs).map (Tok.lparen :: ·)
    else if c = ')' then (go f cs).map (Tok.rparen :: ·)
    else if c.isDigit then
      let ip := cs.takeWhile Char.isDigit
      let intVal : ℚ :=
        ((c :: ip).foldl (fun a d => a * 10 + (d.toNat - 48)) 0 : Nat)
      match cs.drop ip.length with
      | '.' :: rest2 =>
        let fracPart := rest2.takeWhile Char.isDigit
        let v : ℚ := intVal +
          (fracPart.foldl (fun a d => a * 10 + (d.toNat - 48)) 0 : Nat) /
            ((10 : ℚ) ^ fracPart.length)
        (go f (rest2.drop fracPart.length)).map (Tok.num v :: ·)
      | _ => (go f (cs.drop ip.length)).map (Tok.num intVal :: ·)
    else if c = '.' then
      let fracPart := cs.takeWhile Char.isDigit
      if fracPart = [] then none
      else
        let v : ℚ :=
          (fracPart.foldl (fun a d => a * 10 + (d.toNat - 48)) 0 : Nat) /
            ((10 : ℚ) ^ fracPart.length)
        (go f (cs.drop fracPart.length)).map (Tok.num v :: ·)
    else none

/- Fuel-driven recursive-descent parser: `expr := term ((+|-) term)*`,
`term := unary ((*|/) unary)*`, `unary := (+|-) unary | primary`,
`primary := number | ( expr )`.  Division by zero is an evaluation
error (see the module header). -/
mutual
/-- See the grammar comment above. -/
def parseExpr (fuel : Nat) (ts : List Tok) : Option (ℚ × List Tok) :=
  match fuel with
  | 0 => none
  | f + 1 =>
    match parseTerm f ts with
    | none => none
    | some (v, rest) => parseExprTail f v rest
def parseExprTail (fuel : Nat) (acc : ℚ) (ts : List Tok) :
    Option (ℚ × List Tok) :=
  match fuel with
  | 0 => none
  | f + 1 =>
    match ts with
    | .plus :: rest =>
      match parseTerm f rest with
      | none => none
      | some (v, rest2) => parseExprTail f (acc + v) rest2
    | .minus :: rest =>
      match parseTerm f rest with
      | none => none
      | some (v, rest2) => parseExprTail f (acc - v) rest2
    | _ => some (acc, ts)
def parseTerm (fuel : Nat) (ts : List Tok) : Option (ℚ × List Tok) :=
  match fuel with
  | 0 => none
  | f + 1 =>
    match parseUnary f ts with
    | none => none
    | some (v, rest) => parseTermTail f v rest
def parseTermTail (fuel : Nat) (acc : ℚ) (ts : List Tok) :
    Option (ℚ × List Tok) :=
  match fuel with
  | 0 => none
  | f + 1 =>
    match ts with
    | .star :: rest =>
      match parseUnary f rest with
      | none => none
      | some (v, rest2) => parseTermTail f (acc * v) rest2
    | .slash :: rest =>
      match parseUnary f rest with
      | none => none
      | some (v, rest2) =>
        if v = 0 then none else parseTermTail f (acc / v) rest2
    | _ => some (acc, ts)
def parseUnary (fuel : Nat) (ts : List Tok) : Option (ℚ × List Tok) :=
  match fuel with
  | 0 => none
  | f + 1 =>
    match ts with
    | .plus :: rest => parseUnary f rest
    | .minus :: rest =>
      match parseUnary f rest with
      | none => none
      | some (v, rest2) => some (-v, rest2)
    | .num q :: rest => some (q, rest)
    | .lparen :: rest =>
      match parseExpr f rest with
      | none => none
      | some (v, .rparen :: rest2) => some (v, rest2)
      | some _ => none
    | _ => none
end

/-- `Function(\"use strict\"; return (expr))()` on the safe subset:
lex, parse, require all tokens consumed. -/
def evalArith (s : List Char) : Option ℚ :=
  match lexArith s with
  | none => none
  | some ts =>
    match parseExpr (2 * ts.length + 2) ts with
    | some (v, []) => some v
    | _ => none

/-- `evaluateExpression(expression, context)`: substitute known context
values word-bounded, test the safe-character filter, then evaluate;
failing the filter throws `Unsafe expression`, a failing evaluation
throws `Invalid expression`. -/
def evaluateExpression (expr : String) (ctx : List (String × JSVal)) :
    Except String ℚ :=
  let evalExpr := substituteKeys ctx expr.data
  if isSafeExpr evalExpr then
    match evalArith evalExpr with
    | some q => .ok q
    | none => .error ("Invalid expression: " ++ expr)
  else .error ("Unsafe expression: " ++ expr)

/-- The replacement the expression pass emits for one `#\x7b expr \x7d`
placeholder: the formatted value on success, the original placeholder
text verbatim when the evaluation throws. -/
def exprReplacement (ctx : List (String × JSVal)) (expr : List Char) :
    List Char :=
  match evaluateExpression (String.mk expr) ctx with
  | .ok q => (formatNum q).data
  | .error _ => '#' :: '\x7b' :: (expr ++ ['\x7d'])

/-- Pass 4: non-greedy `#\x7b(.+?)\x7d` expression replacement. -/
def replaceExprs (ctx : List (String × JSVal)) (l : List Char) : List Char :=
  go l.length l
where
  /- Fuel-structured as in `replaceBare.go`. -/
  go : Nat → List Char → List Char
  | _, [] => []
  | 0, l => l
  | _ + 1, [c] => [c]
  | f + 1, c1 :: c2 :: cs =>
    if c1 = '#' ∧ c2 = '\x7b' then
      match findCloseIdx cs with
      | some k =>
        exprReplacement ctx (cs.take k) ++ go f (cs.drop (k + 1))
      | none => c1 :: go f (c2 :: cs)
    else c1 :: go f (c2 :: cs)

/-- `render` minus caching: the four replacement passes in source
order, over an already-merged context. -/
def renderPure (ctx : List (String × JSVal)) (text : String) : String :=
  String.mk
    (replaceExprs ctx
      (replaceBare '\x7b' '\x7b' ['\x7d', '\x7d'] ctx
        (replaceBare '$' '\x7b' ['\x7d'] ctx
          (replaceBare '#' '\x7b' ['\x7d'] ctx text.data))))

end ContextRenderer

namespace ContextRenderer

/-- Association-list update for a JS `Map`: `set` keeps an existing
key's position, otherwise appends; iteration order is insertion order. -/
def mapSet (m : List (String × String)) (k v : String) :
    List (String × String) :=
  if (m.find? (fun p => p.1 = k)).isSome then
    m.map (fun p => if p.1 = k then (k, v) else p)
  else m ++ [(k, v)]

/-- JS `Map.get`. -/
def mapGet (m : List (String × String)) (k : String) : Option String :=
  (m.find? (fun p => p.1 = k)).map (fun p => p.2)

/-- The `ContextRenderer` static fields the modelled operations touch
(watcher callbacks are external; watcher notification does not change
this state and is not traced — no claim depends on it). -/
structure CRState where
  context : List (String × JSVal)
  renderCache : List (String × String)
  cacheEnabled : Bool

def maxCacheSize : Nat := 1000

/-- Lexicographic insertion sort (JS default `Array.sort` on the
unique key names). -/
def insertSorted (x : String) : List String → List String
  | [] => [x]
  | y :: ys => if x ≤ y then x :: y :: ys else y :: insertSorted x ys

/-- See `insertSorted`. -/
def sortStrings (l : List String) : List String :=
  l.foldr insertSorted []

/-- `hashObject(obj)`: `JSON.stringify(obj, Object.keys(obj).sort())` —
serialization restricted to the sorted key list (undefined-valued
properties are skipped, as `JSON.stringify` does).  The JS array
replacer also filters keys of nested objects; custom contexts in this
development are flat, so nested values serialize via `jsonStringify`. -/
def hashObject (fields : List (String × JSVal)) : String :=
  let sortedKeys := sortStrings (jsKeys fields)
  "\x7b" ++
    String.intercalate ","
      (sortedKeys.filterMap (fun k =>
        match jsLookup fields k with
        | none => none
        | some .undefined => none
        | some v => some ("\"" ++ jsonEscape k ++ "\":" ++ jsonStringify v))) ++
  "\x7d"

/-- `createCacheKey(text, customContext)`. -/
def createCacheKey (text : String) (custom : List (String × JSVal)) :
    String :=
  text ++ "|" ++ hashObject custom

/-- `addToCache`: evict the oldest entry at capacity, then `Map.set`. -/
def addToCache (cache : List (String × String)) (k v : String) :
    List (String × String) :=
  let c1 :=
    if cache.length ≥ maxCacheSize then
      match cache with
      | [] => []
      | first :: rest => rest.filter (fun p => p.1 ≠ first.1)
    else cache
  mapSet c1 k v

/-- Does an invalidation for `changedKeys` hit this cache key?  The code
splits the cache key on `|` and tests only the FIRST segment against the
three bracketed placeholder spellings of each changed key. -/
def affectedByChange (changedKeys : List String) (cacheKey : String) :
    Bool :=
  let text := String.mk (cacheKey.data.takeWhile (fun c => c ≠ '|'))
  changedKeys.any (fun k =>
    containsSubstr text ("#\x7b" ++ k ++ "\x7d") ||
    containsSubstr text ("$\x7b" ++ k ++ "\x7d") ||
    containsSubstr text ("\x7b\x7b" ++ k ++ "\x7d\x7d"))

/-- `invalidateCache(changedKeys)`: no keys ⇒ full flush; otherwise
delete exactly the entries `affectedByChange` selects. -/
def invalidateCache (changedKeys : List String)
    (cache : List (String × String)) : List (String × String) :=
  if changedKeys = [] then []
  else cache.filter (fun p => ¬ affectedByChange changedKeys p.1)

/-- `render(text, customContext)` with caching: return a cached entry
when present, otherwise compute `renderPure` over the merged context and
cache the result. -/
def render (st : CRState) (text : String)
    (custom : List (String × JSVal)) : String × CRState :=
  let cacheKey := createCacheKey text custom
  match st.cacheEnabled, mapGet st.renderCache cacheKey with
  | true, some v => (v, st)
  | enabled, _ =>
    let rendered := renderPure (mergeCtx st.context custom) text
    if enabled then
      (rendered, { st with renderCache := addToCache st.renderCache cacheKey rendered })
    else (rendered, st)

/-- `updateContext(updates)`: write the changed keys (strict `!==`
against the current value), then — only when something changed —
invalidate the affected cache entries.  Returns the changed-keys list
(the argument `notifyWatchers` receives). -/
def updateContext (st : CRState) (updates : List (String × JSVal)) :
    CRState × List String :=
  let changed := updates.filter (fun p => ¬ JSVal.beq (jsGet st.context p.1) p.2)
  let ctx2 := changed.foldl (fun c p => jsSet c p.1 p.2) st.context
  if changed.isEmpty then ({ st with context := ctx2 }, [])
  else
    ({ st with
       context := ctx2
       renderCache := invalidateCache (jsKeys changed) st.renderCache },
     jsKeys changed)

/-- `setContext(key, value)`: always write; invalidate and notify only
when the value changed. -/
def setContext (st : CRState) (k : String) (v : JSVal) :
    CRState × List String :=
  let oldValue := jsGet st.context k
  let ctx2 := jsSet st.context k v
  if JSVal.beq oldValue v then ({ st with context := ctx2 }, [])
  else
    ({ st with
       context := ctx2
       renderCache := invalidateCache [k] st.renderCache },
     [k])

end ContextRenderer

/-! ## EventHandler (src/client/src/core/event-handler.js, lines 9-311)

Function references: JS compares handlers with `===` (reference
equality).  Application-supplied handler functions and the wrapper
functions `bootstrapHandler` / `bootstrapDelegationHandler` create are
distinct function objects, so references are two-sorted here: a freshly
created wrapper is never reference-equal to a user function.  Wrapper
function objects live in a heap (`wrappers`) that the registry and the
element listener lists point into; they persist even after registry
entries are deleted (as JS function objects do while referenced).

Operations that can throw return the state reached at the throw point
together with `some errorMessage`. -/

namespace EventHandler

/-- A function reference: application code's functions vs. wrapper
functions allocated by `EventHandler.on`. -/
inductive FuncRef where
  | user (id : Nat)
  | wrapper (id : Nat)
deriving DecidableEq, Repr

/-- Metadata carried by one wrapper function (`delegationHandler`):
the wrapped handler, the delegation selector, the `oneOff` flag and the
`uidEvent` tag string assigned to the wrapper (stored, never read back
by `off`). -/
structure WrapperMeta where
  origFn : FuncRef
  selector : Option String
  oneOff : Bool
  uidTag : String
deriving DecidableEq, Repr

/-- `eventRegistry[uid]`: eventKey → (selector or `base`) → wrapper ids,
insertion-ordered at each level. -/
abbrev Events := List (String × List (String × List Nat))

/-- Render-target node state: the `uidEvent` expando, the listeners
attached via `addEventListener` (in order), and whether the node has a
`parentNode`. -/
structure ElemSt where
  uidEvent : Option Nat
  listeners : List (String × Nat)
  attached : Bool
deriving DecidableEq, Repr

/-- The mutable world the event registry operates on.  `dataMap` models
`DataManager.elementMap` membership (which elements have stored data). -/
structure EHWorld where
  elements : List (Nat × ElemSt)
  eventRegistry : List (Nat × Events)
  uidEvent : Nat
  wrapperNext : Nat
  wrappers : List (Nat × WrapperMeta)
  dataMap : List Nat
deriving DecidableEq, Repr

def getElem (w : EHWorld) (i : Nat) : Option ElemSt :=
  (w.elements.find? (fun p => p.1 = i)).map (fun p => p.2)

def setElem (w : EHWorld) (i : Nat) (st : ElemSt) : EHWorld :=
  { w with elements := w.elements.map (fun p => if p.1 = i then (i, st) else p) }

def registryGet (w : EHWorld) (uid : Nat) : Option Events :=
  (w.eventRegistry.find? (fun p => p.1 = uid)).map (fun p => p.2)

def registrySet (w : EHWorld) (uid : Nat) (ev : Events) : EHWorld :=
  { w with eventRegistry :=
      if (w.eventRegistry.find? (fun p => p.1 = uid)).isSome then
        w.eventRegistry.map (fun p => if p.1 = uid then (uid, ev) else p)
      else w.eventRegistry ++ [(uid, ev)] }

def registryDelete (w : EHWorld) (uid : Nat) : EHWorld :=
  { w with eventRegistry := w.eventRegistry.filter (fun p => p.1 ≠ uid) }

/-- `customEvents` remapping. -/
def customEvents (t : String) : String :=
  if t = "mouseenter" then "mouseover"
  else if t = "mouseleave" then "mouseout"
  else t

/-- `event.split('.')` (structural, so proofs can evaluate it). -/
def splitDotAux : List Char → List Char → List String
  | [], acc => [String.mk acc.reverse]
  | c :: rest, acc =>
    if c = '.' then String.mk acc.reverse :: splitDotAux rest []
    else splitDotAux rest (c :: acc)

def splitDot (s : String) : List String := splitDotAux s.data []

/-- `normalizeEventType(event)`: split on `.` into the (remapped) base
type and the namespace suffix. -/
def normalizeEventType (event : String) : String × String :=
  let parts := splitDot event
  let orig := parts.headD ""
  let ns :=
    if parts.length > 1 then "." ++ String.intercalate "." parts.tail else ""
  (customEvents orig, ns)

/-- `getElementEvents(element)`: give the element a registry uid if it
has none (`makeEventUid`, postfix increment of the static counter) and
ensure a registry entry exists.  Returns the uid and the updated
world. -/
def getElementEvents (w : EHWorld) (i : Nat) : Nat × EHWorld :=
  match getElem w i with
  | none => (0, w)
  | some e =>
    let (uid, w1) :=
      match e.uidEvent with
      | some u => (u, w)
      | none =>
        (w.uidEvent,
         setElem { w with uidEvent := w.uidEvent + 1 } i
           { e with uidEvent := some w.uidEvent })
    match registryGet w1 uid with
    | some _ => (uid, w1)
    | none => (uid, registrySet w1 uid [])

/-- Nested JS-object updates inside one registry entry. -/
def eventsGet (ev : Events) (key : String) : Option (List (String × List Nat)) :=
  (ev.find? (fun p => p.1 = key)).map (fun p => p.2)

def eventsSet (ev : Events) (key : String) (v : List (String × List Nat)) :
    Events :=
  if (ev.find? (fun p => p.1 = key)).isSome then
    ev.map (fun p => if p.1 = key then (key, v) else p)
  else ev ++ [(key, v)]

def eventsDelete (ev : Events) (key : String) : Events :=
  ev.filter (fun p => p.1 ≠ key)

def selGet (ed : List (String × List Nat)) (key : String) : Option (List Nat) :=
  (ed.find? (fun p => p.1 = key)).map (fun p => p.2)

def selSet (ed : List (String × List Nat)) (key : String) (v : List Nat) :
    List (String × List Nat) :=
  if (ed.find? (fun p => p.1 = key)).isSome then
    ed.map (fun p => if p.1 = key then (key, v) else p)
  else ed ++ [(key, v)]

def selDelete (ed : List (String × List Nat)) (key : String) :
    List (String × List Nat) :=
  ed.filter (fun p => p.1 ≠ key)

/-- `EventHandler.on(element, event, selector, handler, oneOff)` — the
source name `on` is reserved in Lean, hence `onEvent` (the
`selector`-as-`handler` JS overload is resolved by the explicit
arguments here).  Allocates a wrapper, tags it, registers it under
`eventKey = originalType ++ namespace` and `selector || 'base'`, and
attaches the wrapper with `addEventListener(originalType, wrapper)`. -/
def onEvent (w : EHWorld) (i : Nat) (event : String) (selector : Option String)
    (handler : FuncRef) (oneOff : Bool := false) : EHWorld :=
  match getElem w i with
  | none => w
  | some _ =>
    if event = "" then w
    else
      let (orig, ns) := normalizeEventType event
      let wid := w.wrapperNext
      let meta : WrapperMeta :=
        { origFn := handler, selector := selector, oneOff := oneOff
          uidTag := orig ++ "::" ++ toString w.uidEvent }
      let w1 : EHWorld :=
        { w with
          wrapperNext := wid + 1
          uidEvent := w.uidEvent + 1
          wrappers := w.wrappers ++ [(wid, meta)] }
      let (uid, w2) := getElementEvents w1 i
      let events := (registryGet w2 uid).getD []
      let eventKey := orig ++ ns
      let eventData := (eventsGet events eventKey).getD []
      let selKey := selector.getD "base"
      let handlers := (selGet eventData selKey).getD []
      let events2 := eventsSet events eventKey
        (selSet eventData selKey (handlers ++ [wid]))
      let w3 := registrySet w2 uid events2
      match getElem w3 i with
      | none => w3
      | some e3 => setElem w3 i { e3 with listeners := e3.listeners ++ [(orig, wid)] }

/-- `removeEventListener(type, wrapper)`: drop the matching attached
listener (it was attached once). -/
def removeListener (e : ElemSt) (orig : String) (wid : Nat) : ElemSt :=
  { e with listeners :=
      match e.listeners.findIdx? (fun p => p.1 = orig ∧ p.2 = wid) with
      | none => e.listeners
      | some idx => e.listeners.eraseIdx idx }

/-- The `removeEventListener` performed for one registered wrapper id
when the `===` test of line 122 selects it (no handler given, or the
given reference IS the stored wrapper). -/
def offRemoveStep (i : Nat) (orig : String) (handler : Option FuncRef)
    (wA : EHWorld) (wid : Nat) : EHWorld :=
  if handler.isNone ∨ handler = some (FuncRef.wrapper wid) then
    match getElem wA i with
    | none => wA
    | some e => setElem wA i (removeListener e orig wid)
  else wA

/-- One iteration of the `eventKeys.forEach` loop in `off` (lines
114-141 of the source): remove the listeners the `===` test selects,
filter/delete the handler lists, drop emptied sub-objects. -/
def offKeyStep (i : Nat) (orig : String) (selector : Option String)
    (handler : Option FuncRef) (uid : Nat) (wAcc : EHWorld)
    (eventKey : String) : EHWorld :=
  match registryGet wAcc uid with
  | none => wAcc
  | some evs =>
    match eventsGet evs eventKey with
    | none => wAcc
    | some eventData =>
      let selKey := selector.getD "base"
      let handlers := (selGet eventData selKey).getD []
      -- removeEventListener for wrappers passing the === test
      let wAcc2 := handlers.foldl (offRemoveStep i orig handler) wAcc
      let eventData2 :=
        match handler with
        | none => selDelete eventData selKey
        | some h =>
          let filtered := handlers.filter
            (fun wid => FuncRef.wrapper wid ≠ h)
          if filtered.isEmpty then selDelete eventData selKey
          else selSet eventData selKey filtered
      let evs2 :=
        if eventData2.isEmpty then eventsDelete evs eventKey
        else eventsSet evs eventKey eventData2
      registrySet wAcc2 uid evs2

/-- The final registry cleanup of `off` (lines 143-146): drop the whole
registry entry when every event key was emptied. -/
def offFinish (uid : Nat) (w2 : EHWorld) : EHWorld :=
  match registryGet w2 uid with
  | some evs2 => if evs2.isEmpty then registryDelete w2 uid else w2
  | none => w2

/-- The body of `off` for one resolved event-key string (lines 94-147 of
the source minus the recursive `!event` branch): the caller guarantees
`ev` is the `event` argument as given (possibly namespaced). -/
def offSingle (w : EHWorld) (i : Nat) (ev : String)
    (selector : Option String) (handler : Option FuncRef) : EHWorld :=
  let (uid, w1) := getElementEvents w i
  let events := (registryGet w1 uid).getD []
  let isNamespaceEvent := containsSubstr ev "."
  let (orig, _) := normalizeEventType ev
  if events.isEmpty then w1
  else
    let eventKeys :=
      if isNamespaceEvent then
        (events.map (fun p => p.1)).filter
          (fun key => containsSubstr key (ev.drop 1))
      else [orig]
    offFinish uid (eventKeys.foldl (offKeyStep i orig selector handler uid) w1)

/-- `EventHandler.off(element, event, selector, handler)`.

`event === undefined` (`none` here) reaches `event.includes('.')` on
line 95 and throws a `TypeError`; the `if (!event)` bulk-removal branch
on line 103 is therefore reachable only for the empty string, for which
each registered event key is removed in turn. -/
def off (w : EHWorld) (i : Nat) (event : Option String)
    (selector : Option String) (handler : Option FuncRef) :
    EHWorld × Option String :=
  match getElem w i with
  | none => (w, none)
  | some _ =>
    match event with
    | none =>
      let (_, w1) := getElementEvents w i
      (w1, some "TypeError: Cannot read properties of undefined (reading includes)")
    | some ev =>
      if ev = "" then
        let (uid, w1) := getElementEvents w i
        let events := (registryGet w1 uid).getD []
        if events.isEmpty then (w1, none)
        else
          ((events.map (fun p => p.1)).foldl
            (fun wAcc key => offSingle wAcc i key none none) w1, none)
      else (offSingle w i ev selector handler, none)

/-- `EventHandler.one`: `on` with `oneOff = true`. -/
def one (w : EHWorld) (i : Nat) (event : String) (selector : Option String)
    (handler : FuncRef) : EHWorld :=
  onEvent w i event selector handler true

/-- `cleanupElement(element)`: early return when the element has no
`uidEvent`; otherwise `this.off(element)` — which throws (see `off`),
so the two `delete` statements after it never execute once any handler
was registered through this registry. -/
def cleanupElement (w : EHWorld) (i : Nat) : EHWorld × Option String :=
  match getElem w i with
  | none => (w, none)
  | some e =>
    match e.uidEvent with
    | none => (w, none)
    | some uid =>
      let (w1, err) := off w i none none none
      match err with
      | some m => (w1, some m)
      | none =>
        let w2 := registryDelete w1 uid
        match getElem w2 i with
        | none => (w2, none)
        | some e2 => (setElem w2 i { e2 with uidEvent := none }, none)

/-- Dispatch of a plain (non-bubbling-target) event on the element
itself: every attached wrapper for the type runs in attach order; a
non-delegated wrapper invokes its stored handler; a delegation wrapper
walks from `event.target` up to (excluding) the container — when the
target IS the container the walk is empty and the wrapped handler is
not invoked.  The `oneOff` self-removal never fires because the flag is
set on the bound wrapper while the inner closure reads it off the
unbound one (see `bootstrapHandler`), so dispatch leaves the world
unchanged.  Returns the invoked handler references in order. -/
def dispatchSelf (w : EHWorld) (i : Nat) (etype : String) : List FuncRef :=
  match getElem w i with
  | none => []
  | some e =>
    (e.listeners.filter (fun p => p.1 = etype)).filterMap
      (fun p =>
        match (w.wrappers.find? (fun q => q.1 = p.2)).map (fun q => q.2) with
        | none => none
        | some meta =>
          match meta.selector with
          | none => some meta.origFn
          | some _ => none)

end EventHandler

/-! ## Control event emission (base-control.js lines 221-259)

`emit` walks the parent chain (`this.parent.emit(...)`); a control's
ancestry is modelled as the list `c :: parent :: grandparent :: ...`.
Handlers are opaque callbacks; `emit` produces the trace of handler
invocations (control UID, handler id, the data object received, and
whether the handler threw — the source catches and logs a throwing
handler and continues with the remaining handlers and the bubble
step). -/

namespace ControlEmit

/-- A locally registered handler: its identity and whether calling it
throws. -/
structure HandlerSpec where
  hid : Nat
  throws : Bool
deriving DecidableEq, Repr

/-- The fields of a control that `emit` reads: `UID` and the
`eventListeners` table (event name → handlers in `on` registration
order). -/
structure EmitCtrl where
  uid : String
  eventListeners : List (String × List HandlerSpec)

/-- One handler invocation: which control's handler, which handler, the
`data` argument it received, and whether it threw (caught by `emit`). -/
structure InvokeRec where
  ctrlUid : String
  hid : Nat
  data : List (String × JSVal)
  threw : Bool

/-- `emit(event, data)` along the ancestor chain: invoke every local
handler for `event` with `data` (exceptions isolated per handler), then
bubble to the parent with `\x7b...data, source: this.UID\x7d`. -/
def emitChain : List EmitCtrl → String → List (String × JSVal) → List InvokeRec
  | [], _, _ => []
  | c :: ancestors, event, data =>
    let hs := (((c.eventListeners.find? (fun p => p.1 = event)).map
      (fun p => p.2)).getD [])
    hs.map (fun h => ⟨c.uid, h.hid, data, h.throws⟩) ++
    emitChain ancestors event (jsSet data "source" (.str c.uid))

end ControlEmit

/-! ## Control.destroy (base-control.js lines 368-400)

`destroy` runs `EventHandler.cleanupElement(this.element)` (the app
loads `EventHandler`, so the fallback branch is dead), clears the
DataManager entry, destroys children in order, then detaches the node
from its parent node.  The control object itself is immutable here:
the source clears `this.eventListeners` but never removes the control
from its parent's `childControls`, so re-running `destroy` on the same
control value models a second `destroy()` call faithfully. -/

namespace ControlDestroy

open EventHandler

/-- The fields of a control that `destroy` traverses: identity, its
render-target node, and its child controls (`childControls`). -/
inductive CtrlNode where
  | mk (uid : String) (elemId : Nat) (children : List CtrlNode)

def CtrlNode.uid : CtrlNode → String
  | .mk u _ _ => u

def CtrlNode.elemId : CtrlNode → Nat
  | .mk _ e _ => e

def CtrlNode.children : CtrlNode → List CtrlNode
  | .mk _ _ cs => cs

/-- `DataManager.clearElement(element)`. -/
def dataClearElement (w : EHWorld) (i : Nat) : EHWorld :=
  { w with dataMap := w.dataMap.filter (fun j => j ≠ i) }

/-- `element.parentNode.removeChild(element)` guarded by
`this.element && this.element.parentNode`. -/
def detachElem (w : EHWorld) (i : Nat) : EHWorld :=
  match getElem w i with
  | none => w
  | some e => if e.attached then setElem w i { e with attached := false } else w

mutual
/-- `Control.destroy()`; an exception propagates (aborting the remaining
steps and, for a child, its later siblings' destruction). -/
def destroy (w : EHWorld) (c : CtrlNode) : EHWorld × Option String :=
  match c with
  | .mk _ elemId children =>
    let (w1, e1) := cleanupElement w elemId
    match e1 with
    | some m => (w1, some m)
    | none =>
      let w2 := dataClearElement w1 elemId
      let (w3, e3) := destroyChildren w2 children
      match e3 with
      | some m => (w3, some m)
      | none => (detachElem w3 elemId, none)
/-- `this.childControls.forEach(child => child.destroy())`. -/
def destroyChildren (w : EHWorld) : List CtrlNode → EHWorld × Option String
  | [] => (w, none)
  | c :: rest =>
    let (w1, e1) := destroy w c
    match e1 with
    | some m => (w1, some m)
    | none => destroyChildren w1 rest
end

/-- No handler was ever registered through `EventHandler` for this
element (its `uidEvent` expando is unset). -/
def elemNoUid (w : EHWorld) (i : Nat) : Bool :=
  match getElem w i with
  | some e => e.uidEvent.isNone
  | none => true

mutual
/-- All element ids in a control subtree. -/
def subtreeElems : CtrlNode → List Nat
  | .mk _ e cs => e :: subtreeElemsList cs
/-- See `subtreeElems`. -/
def subtreeElemsList : List CtrlNode → List Nat
  | [] => []
  | c :: rest => subtreeElems c ++ subtreeElemsList rest
end

end ControlDestroy

/-! ## Validation (base-control.js lines 974-1604)

`ControlDefinition` is modelled as a typed record.  JS definitions are
untyped objects; conditions the typed fields cannot violate (a
non-array `children`, a non-object `props`/`style`, non-string text
fields, non-boolean flags — the `validateProperties`/`validateStyle`
warnings and errors) are unrepresentable here and contribute nothing.
`extraKeys` carries the names of unexpected top-level properties; a
present `state` key is also unexpected (it is absent from the source's
`allowedProps` list).  An absent field and a present-but-`undefined`
field are both modelled as `none`.  `hasOwnProperty` on a `null` cart
item would throw in JS (caught by the outer `try`); items are modelled
as yielding no fields instead — no claim involves such definitions. -/

namespace Validation

/-- Case-insensitive prefix test (for the `gi` regexes). -/
def ciPrefix (pat : List Char) (cs : List Char) : Bool :=
  (cs.take pat.length).map Char.toLower = pat

/-- Index of the first case-insensitive occurrence of `pat`. -/
def findCiSub (pat : List Char) : List Char → Option Nat
  | [] => none
  | c :: cs =>
    if ciPrefix pat (c :: cs) then some 0
    else (findCiSub pat cs).map (· + 1)

/-- Strip `<script\b[^<]*(?:(?!<\/script>)<[^<]*)*<\/script>` (gi):
a case-insensitive `<script` with a word boundary, everything up to and
including the first case-insensitive `</script>`. -/
def stripScriptTags (s : String) : String :=
  String.mk (go s.data.length s.data)
where
  /- Fuel-structured: every step consumes at least one character. -/
  go : Nat → List Char → List Char
  | _, [] => []
  | 0, l => l
  | f + 1, c :: cs =>
    let boundaryOk :=
      match ((c :: cs).drop 7).head? with
      | some ch => ¬ ContextRenderer.isWordChar ch
      | none => true
    if ciPrefix "<script".data (c :: cs) && boundaryOk then
      match findCiSub "</script>".data ((c :: cs).drop 7) with
      | some i => go f (((c :: cs).drop 7).drop (i + 9))
      | none => c :: go f cs
    else c :: go f cs

/-- Strip every case-insensitive `javascript:` occurrence. -/
def stripJsProtocol (s : String) : String :=
  String.mk (go s.data.length s.data)
where
  /- Fuel-structured: every step consumes at least one character. -/
  go : Nat → List Char → List Char
  | _, [] => []
  | 0, l => l
  | f + 1, c :: cs =>
    if ciPrefix "javascript:".data (c :: cs) then go f ((c :: cs).drop 11)
    else c :: go f cs

/-- JS `String.trim()`. -/
def jsTrim (s : String) : String :=
  String.mk
    (((s.data.dropWhile ContextRenderer.isJsSpace).reverse.dropWhile
      ContextRenderer.isJsSpace).reverse)

/-- `sanitizeString(str)`: strip script tags, strip `javascript:`,
trim. -/
def sanitizeString (s : String) : String :=
  jsTrim (stripJsProtocol (stripScriptTags s))

/-- The `ControlDefinition` input shape (§ the module comment above). -/
inductive Definition where
  | mk (type_ : Option String) (UID : Option String)
       (title text placeholder value : Option String)
       (disabled visible : Option Bool)
       (props style state : Option (List (String × JSVal)))
       (children : Option (List Definition))
       (extraKeys : List String)

def Definition.type_ : Definition → Option String
  | .mk t _ _ _ _ _ _ _ _ _ _ _ _ => t

def Definition.UID : Definition → Option String
  | .mk _ u _ _ _ _ _ _ _ _ _ _ _ => u

def Definition.title : Definition → Option String
  | .mk _ _ x _ _ _ _ _ _ _ _ _ _ => x

def Definition.text : Definition → Option String
  | .mk _ _ _ x _ _ _ _ _ _ _ _ _ => x

def Definition.placeholder : Definition → Option String
  | .mk _ _ _ _ x _ _ _ _ _ _ _ _ => x

def Definition.value : Definition → Option String
  | .mk _ _ _ _ _ x _ _ _ _ _ _ _ => x

def Definition.disabled : Definition → Option Bool
  | .mk _ _ _ _ _ _ x _ _ _ _ _ _ => x

def Definition.visible : Definition → Option Bool
  | .mk _ _ _ _ _ _ _ x _ _ _ _ _ => x

def Definition.props : Definition → Option (List (String × JSVal))
  | .mk _ _ _ _ _ _ _ _ x _ _ _ _ => x

def Definition.style : Definition → Option (List (String × JSVal))
  | .mk _ _ _ _ _ _ _ _ _ x _ _ _ => x

def Definition.state : Definition → Option (List (String × JSVal))
  | .mk _ _ _ _ _ _ _ _ _ _ x _ _ => x

def Definition.children : Definition → Option (List Definition)
  | .mk _ _ _ _ _ _ _ _ _ _ _ x _ => x

def Definition.extraKeys : Definition → List String
  | .mk _ _ _ _ _ _ _ _ _ _ _ _ x => x

/-- A definition carrying only a `type`. -/
def defnOfType (t : String) : Definition :=
  .mk (some t) none none none none none none none none none none none []

/-- `VALID_CONTROL_TYPES`, in the source's insertion order (note:
`search-bar` is a member, the factory alias `input` is not). -/
def VALID_CONTROL_TYPES : List String :=
  ["panel", "tab-control", "grid-layout", "section", "splitter",
   "datagrid", "textbox", "numeric-input", "password", "barcode-input",
   "dropdown", "datepicker", "toggle", "search-bar", "button",
   "button-pad", "menu-button", "shortcut-keys", "label", "message-box",
   "status-bar", "notification-area", "image", "cart-grid",
   "totals-display", "payment-control", "change-due-display",
   "customer-info-panel", "price-checker", "signature-pad",
   "receipt-preview", "scale-input", "cash-drawer", "device-control",
   "context-menu"]

def BUTTON_VARIANTS : List String :=
  ["primary", "secondary", "destructive", "outline", "ghost", "default"]

def BUTTON_SIZES : List String := ["sm", "default", "lg"]

def LABEL_VARIANTS : List String :=
  ["heading", "subtitle", "caption", "default"]

def DEVICE_TYPES : List String :=
  ["printer", "scanner", "scale", "terminal", "display"]

/-- `Set.has(v)` on a set of strings (a non-string member test is
false). -/
def setHas (l : List String) (v : JSVal) : Bool :=
  match v with
  | .str s => l.contains s
  | _ => false

/-- `isValidUID`: `^[a-zA-Z0-9_-]+$`. -/
def isValidUID (u : String) : Bool :=
  u ≠ "" && u.data.all (fun c =>
    ('a' ≤ c && c ≤ 'z') || ('A' ≤ c && c ≤ 'Z') ||
    ('0' ≤ c && c ≤ '9') || c = '-' || c = '_')

/-- A full decimal numeric literal with optional sign (exponent forms
and numeric singleton arrays, which JS would also accept, are not
modelled — no claim uses them). -/
def isNumericStr (s : String) : Bool :=
  let t := (jsTrim s).data
  let afterSign :=
    match t with
    | c :: rest => if c = '+' ∨ c = '-' then rest else t
    | [] => []
  let ip := afterSign.takeWhile Char.isDigit
  match afterSign.drop ip.length with
  | [] => ¬ ip.isEmpty
  | '.' :: fp =>
    let fpd := fp.takeWhile Char.isDigit
    (fp.drop fpd.length).isEmpty && (¬ ip.isEmpty || ¬ fpd.isEmpty)
  | _ => false

/-- `isNumeric(value)`: `!isNaN(parseFloat(value)) && isFinite(value)`. -/
def isNumericJS : JSVal → Bool
  | .num _ => true
  | .str s => isNumericStr s
  | _ => false

/-- `Number.isInteger(v)` (modelled numbers are integral). -/
def isIntegerJS : JSVal → Bool
  | .num _ => true
  | _ => false

def jsIsUndefined : JSVal → Bool
  | .undefined => true
  | _ => false

/-- JS `Number(v)` coercion where it yields a finite number (`none`
stands for NaN; arrays/objects are not modelled, see `isNumericStr`). -/
def toNumberJS : JSVal → Option ℚ
  | .num n => some (n : ℚ)
  | .bool b => some (if b then 1 else 0)
  | .null => some 0
  | .str s =>
    if isNumericStr s then
      match ContextRenderer.lexArith (jsTrim s).data with
      | some [.num q] => some q
      | some [.minus, .num q] => some (-q)
      | some [.plus, .num q] => some q
      | _ => none
    else none
  | _ => none

/-- JS `a > b` under numeric coercion (false when either side is NaN). -/
def numGt (a b : JSVal) : Bool :=
  match toNumberJS a, toNumberJS b with
  | some x, some y => x > y
  | _, _ => false

/-- JS `a <= 0` under numeric coercion. -/
def numLeZero (a : JSVal) : Bool :=
  match toNumberJS a with
  | some x => x ≤ 0
  | none => false

/-- `definition.props?.k`. -/
def propGet (d : Definition) (k : String) : JSVal :=
  match d.props with
  | none => .undefined
  | some ps => jsGet ps k

/-- Property access on an arbitrary value (non-objects yield
`undefined`). -/
def fieldOf (v : JSVal) (k : String) : JSVal :=
  match v with
  | .obj fs => jsGet fs k
  | _ => .undefined

/-- `hasOwnProperty` on an arbitrary value. -/
def hasOwnJS (v : JSVal) (k : String) : Bool :=
  match v with
  | .obj fs => jsHasKey fs k
  | _ => false

def validTypesJoined : String :=
  String.intercalate ", " VALID_CONTROL_TYPES

/-- `validateBasicStructure`: missing `type` error, invalid-type error,
UID-format warning, unexpected-property warnings. -/
def validateBasicStructure (d : Definition) :
    List String × List String :=
  let e1 := if d.type_.isNone then ["Missing required property: type"] else []
  let e2 :=
    match d.type_ with
    | some t =>
      if t ≠ "" && !VALID_CONTROL_TYPES.contains t then
        ["Invalid control type: " ++ t ++ ". Valid types: " ++ validTypesJoined]
      else []
    | none => []
  let w1 :=
    match d.UID with
    | some u =>
      if !isValidUID u then
        ["UID \"" ++ u ++
         "\" should be a valid identifier (alphanumeric, hyphens, underscores)"]
      else []
    | none => []
  let w2 :=
    (if d.state.isSome then ["Unexpected property: state"] else []) ++
    d.extraKeys.map (fun p => "Unexpected property: " ++ p)
  (e1 ++ e2, w1 ++ w2)

/-- `validateButton`. -/
def validateButton (d : Definition) : List String × List String :=
  let es :=
    match d.props with
    | none => []
    | some ps =>
      let variant := jsGet ps "variant"
      let size := jsGet ps "size"
      (if variant.truthy && !setHas BUTTON_VARIANTS variant then
        ["Invalid button variant: " ++ jsToString variant ++
         ". Valid variants: " ++ String.intercalate ", " BUTTON_VARIANTS]
       else []) ++
      (if size.truthy && !setHas BUTTON_SIZES size then
        ["Invalid button size: " ++ jsToString size ++
         ". Valid sizes: " ++ String.intercalate ", " BUTTON_SIZES]
       else [])
  let textTruthy := match d.text with | some s => s ≠ "" | none => false
  let ws :=
    if !textTruthy && !(propGet d "icon").truthy then
      ["Button should have either text or icon"]
    else []
  (es, ws)

/-- `validateGridLayout`. -/
def validateGridLayout (d : Definition) : List String × List String :=
  match d.style with
  | none => ([], [])
  | some st =>
    let rows := jsGet st "rows"
    let columns := jsGet st "columns"
    let badDim (v : JSVal) : Bool :=
      v.truthy && (!isIntegerJS v ||
        (match v with | .num n => decide (n < 1) | _ => false))
    let e1 := if badDim rows then ["Grid rows must be a positive integer"] else []
    let e2 := if badDim columns then ["Grid columns must be a positive integer"] else []
    let ws :=
      if d.children.isSome && rows.truthy && columns.truthy then
        match rows, columns with
        | .num r, .num c =>
          let len := (d.children.getD []).length
          if (len : Int) > r * c then
            ["Grid has " ++ toString len ++ " children but only " ++
             toString (r * c) ++ " cells (" ++ toString r ++ "x" ++
             toString c ++ ")"]
          else []
        | _, _ => []
      else []
    (e1 ++ e2, ws)

/-- `validateDropdown`. -/
def validateDropdown (d : Definition) : List String × List String :=
  let opts := propGet d "options"
  if !opts.truthy then (["Dropdown must have options in props"], [])
  else
    match opts with
    | .arr options =>
      let ws := if options.length = 0 then ["Dropdown has no options"] else []
      let es := options.enum.flatMap (fun p =>
        match p.2 with
        | .obj fs =>
          if !(jsHasKey fs "value" && jsHasKey fs "label") then
            ["Dropdown option at index " ++ toString p.1 ++
             " must have \x27value\x27 and \x27label\x27 properties"]
          else []
        | .arr _ =>
          ["Dropdown option at index " ++ toString p.1 ++
           " must have \x27value\x27 and \x27label\x27 properties"]
        | .str _ => []
        | _ =>
          ["Dropdown option at index " ++ toString p.1 ++
           " must be a string or object with value/label"])
      (es, ws)
    | _ => (["Dropdown options must be an array"], [])

/-- `validateNumericInput`. -/
def validateNumericInput (d : Definition) : List String × List String :=
  let es :=
    match d.props with
    | none => []
    | some ps =>
      let minV := jsGet ps "min"
      let maxV := jsGet ps "max"
      let step := jsGet ps "step"
      (if !jsIsUndefined minV && !isNumericJS minV then
        ["Numeric input min must be a number"] else []) ++
      (if !jsIsUndefined maxV && !isNumericJS maxV then
        ["Numeric input max must be a number"] else []) ++
      (if !jsIsUndefined minV && !jsIsUndefined maxV && numGt minV maxV then
        ["Numeric input min cannot be greater than max"] else []) ++
      (if !jsIsUndefined step && (!isNumericJS step || numLeZero step) then
        ["Numeric input step must be a positive number"] else [])
  let ws :=
    match d.value with
    | some s =>
      if !isNumericJS (.str s) then ["Numeric input value should be numeric"]
      else []
    | none => []
  (es, ws)

/-- `validateDataGrid`. -/
def validateDataGrid (d : Definition) : List String × List String :=
  let cols := propGet d "columns"
  if !cols.truthy then (["DataGrid must have columns in props"], [])
  else
    match cols with
    | .arr columns =>
      let es := columns.enum.flatMap (fun p =>
        if !((fieldOf p.2 "key").truthy && (fieldOf p.2 "title").truthy) then
          ["DataGrid column at index " ++ toString p.1 ++
           " must have \x27key\x27 and \x27title\x27 properties"]
        else [])
      let dataV := propGet d "data"
      let es2 :=
        if dataV.truthy && !(match dataV with | .arr _ => true | _ => false) then
          ["DataGrid data must be an array"]
        else []
      (es ++ es2, [])
    | _ => (["DataGrid columns must be an array"], [])

/-- `validateDeviceControl`. -/
def validateDeviceControl (d : Definition) : List String × List String :=
  let dt := propGet d "deviceType"
  (if dt.truthy && !setHas DEVICE_TYPES dt then
    ["Invalid device type: " ++ jsToString dt ++ ". Valid types: " ++
     String.intercalate ", " DEVICE_TYPES]
   else [], [])

/-- `validateCartGrid`. -/
def validateCartGrid (d : Definition) : List String × List String :=
  let items := propGet d "items"
  if !items.truthy then ([], [])
  else
    match items with
    | .arr its =>
      (its.enum.flatMap (fun p =>
        let idx := toString p.1
        (["id", "name", "price"].filterMap (fun f =>
          if !hasOwnJS p.2 f then
            some ("Cart item at index " ++ idx ++ " missing required field: " ++ f)
          else none)) ++
        (if !jsIsUndefined (fieldOf p.2 "price") &&
            !isNumericJS (fieldOf p.2 "price") then
          ["Cart item at index " ++ idx ++ " price must be numeric"]
         else []) ++
        (let q := fieldOf p.2 "quantity"
         if !jsIsUndefined q &&
            (!isIntegerJS q ||
              (match q with | .num n => decide (n < 0) | _ => false)) then
          ["Cart item at index " ++ idx ++
           " quantity must be a non-negative integer"]
         else [])), [])
    | _ => (["Cart items must be an array"], [])

/-- `validateLabel`. -/
def validateLabel (d : Definition) : List String × List String :=
  let variant := propGet d "variant"
  (if variant.truthy && !setHas LABEL_VARIANTS variant then
    ["Invalid label variant: " ++ jsToString variant ++
     ". Valid variants: " ++ String.intercalate ", " LABEL_VARIANTS]
   else [], [])

/-- `validateTypeSpecific`: dispatch on `type`. -/
def validateTypeSpecific (d : Definition) : List String × List String :=
  match d.type_ with
  | some "button" => validateButton d
  | some "grid-layout" => validateGridLayout d
  | some "dropdown" => validateDropdown d
  | some "numeric-input" => validateNumericInput d
  | some "datagrid" => validateDataGrid d
  | some "device-control" => validateDeviceControl d
  | some "cart-grid" => validateCartGrid d
  | some "label" => validateLabel d
  | _ => ([], [])

/-- `applySanitization`: fill a missing/empty `UID` from the generator
(warning), default `disabled`/`visible`/`props`, sanitize the truthy
free-text fields.  Returns the sanitized definition and the warnings it
pushes. -/
def applySanitization (gen : Option String → String) (d : Definition) :
    Definition × List String :=
  let genU := gen d.type_
  let (uid, ws) :=
    match d.UID with
    | some u =>
      if u ≠ "" then (some u, []) else (some genU, ["Generated UID: " ++ genU])
    | none => (some genU, ["Generated UID: " ++ genU])
  let sanStr (x : Option String) : Option String :=
    match x with
    | some s => if s ≠ "" then some (sanitizeString s) else some s
    | none => none
  (.mk d.type_ uid (sanStr d.title) (sanStr d.text) (sanStr d.placeholder)
     d.value (some (d.disabled.getD false)) (some (d.visible.getD true))
     (some (d.props.getD [])) d.style d.state d.children d.extraKeys, ws)

/-- `validateControlDefinition` result. -/
structure VResult where
  isValid : Bool
  errors : List String
  warnings : List String
  sanitizedDefinition : Option Definition

mutual
/-- `Validation.validateControlDefinition(definition)`: basic structure,
type-specific rules, recursive child validation (child errors and
warnings re-surfaced with a `Child at index i: ` prefix), then
sanitization; `isValid` iff the accumulated error list is empty.  The
outer `try`/`catch` never fires in this total model. -/
def validateControlDefinition (gen : Option String → String) :
    Definition → VResult
  | .mk t uid title text ph value dis vis props style st children extra =>
    let d := Definition.mk t uid title text ph value dis vis props style st
      children extra
    let be := validateBasicStructure d
    let te := validateTypeSpecific d
    let childResults :=
      match children with
      | none => []
      | some cs => validateChildrenList gen cs
    let ce := childResults.enum.flatMap (fun p =>
      p.2.errors.map (fun e => "Child at index " ++ toString p.1 ++ ": " ++ e))
    let cw := childResults.enum.flatMap (fun p =>
      p.2.warnings.map (fun w => "Child at index " ++ toString p.1 ++ ": " ++ w))
    let sanitized := applySanitization gen d
    let errors := be.1 ++ te.1 ++ ce
    { isValid := errors.isEmpty
      errors := errors
      warnings := be.2 ++ te.2 ++ cw ++ sanitized.2
      sanitizedDefinition := some sanitized.1 }
/-- `definition.children.forEach(child => validateControlDefinition(child))`. -/
def validateChildrenList (gen : Option String → String) :
    List Definition → List VResult
  | [] => []
  | c :: rest => validateControlDefinition gen c :: validateChildrenList gen rest
end

end Validation

/-! ## ControlFactory (src/client/src/core/control-factory.js) and
Control construction / child rendering (base-control.js lines 40-191)

`window.Validation` is loaded in the application, so `create` always
uses the comprehensive validator.  A registry entry models
`() => window.XControl`: whether the global class is available at call
time, and whether that subtype's constructor throws; the base `Control`
constructor only copies fields and is total here, so the
"fallback-also-threw ⇒ null" branch of `create` is unreachable in the
model. -/

namespace ControlFactory

open Validation

/-- One registry entry (`type → () => ConstructorLike`). -/
structure Provider where
  classAvailable : Bool
  ctorThrows : Bool
deriving DecidableEq, Repr

def defaultProvider : Provider := ⟨true, false⟩

/-- `ControlFactory.controlTypes` key set, in insertion order (note the
`input` alias, absent from `Validation.VALID_CONTROL_TYPES`). -/
def controlTypeKeys : List String :=
  ["panel", "tab-control", "grid-layout", "section", "splitter",
   "datagrid", "textbox", "input", "numeric-input", "password",
   "barcode-input", "dropdown", "datepicker", "toggle", "button",
   "button-pad", "menu-button", "shortcut-keys", "label", "message-box",
   "status-bar", "notification-area", "image", "cart-grid",
   "totals-display", "payment-control", "change-due-display",
   "customer-info-panel", "price-checker", "signature-pad",
   "receipt-preview", "scale-input", "cash-drawer", "device-control",
   "context-menu", "search-bar"]

def defaultRegistry : List (String × Provider) :=
  controlTypeKeys.map (fun t => (t, defaultProvider))

/-- The environment a `create` call runs in: the (runtime-mutable)
registry and the nondeterministic UID generators
(`Validation.generateUID(type)` and the `DomUtilities.getUID('control')`
fallback of the `Control` constructor). -/
structure FactoryEnv where
  registry : List (String × Provider)
  genUID : Option String → String
  ctorUID : String

/-- Which constructor produced an instance. -/
inductive CtrlClass where
  | base
  | subtype (t : String)
deriving DecidableEq, Repr

/-- The constructed-state fields of a `Control` (base-control.js
constructor).  `element` is `null`, `parent` is `null` and
`childControls` is empty at construction; rendering returns the created
element tree and child instances explicitly, so they are not duplicated
here. -/
structure ControlInst where
  UID : String
  type_ : Option String
  props : List (String × JSVal)
  state : List (String × JSVal)
  children : List Definition
  style : List (String × JSVal)
  text : String
  placeholder : String
  title : String
  value : String
  disabled : Bool
  visible : Bool
  parent : Option String
  klass : CtrlClass

/-- The `Control` constructor field copies (`definition.X || default`;
`visible` is `definition.visible !== false`). -/
def mkControlInst (env : FactoryEnv) (klass : CtrlClass) (d : Definition) :
    ControlInst :=
  { UID :=
      match d.UID with
      | some u => if u ≠ "" then u else env.ctorUID
      | none => env.ctorUID
    type_ := d.type_
    props := d.props.getD []
    state := d.state.getD []
    children := d.children.getD []
    style := d.style.getD []
    text := d.text.getD ""
    placeholder := d.placeholder.getD ""
    title := d.title.getD ""
    value := d.value.getD ""
    disabled := d.disabled.getD false
    visible := d.visible ≠ some false
    parent := none
    klass := klass }

/-- `!definition.type` (absent or empty string). -/
def typeTruthy (d : Definition) : Bool :=
  match d.type_ with
  | some t => t ≠ ""
  | none => false

/-- The designated critical subset of validation errors
(`error.includes('type is required') || error.includes('Invalid control
type')`) — note that child errors re-surfaced with a `Child at index`
prefix still contain the `Invalid control type` substring. -/
def criticalErrors (errors : List String) : List String :=
  errors.filter (fun e =>
    containsSubstr e "type is required" || containsSubstr e "Invalid control type")

/-- `ControlFactory.create(definition)`. -/
def create (env : FactoryEnv) (d : Option Definition) : Option ControlInst :=
  match d with
  | none => none
  | some df =>
    if !typeTruthy df then none
    else
      let validation := validateControlDefinition env.genUID df
      if !validation.isValid && !(criticalErrors validation.errors).isEmpty then
        none
      else
        let sd := validation.sanitizedDefinition.getD df
        match sd.type_ with
        | none => some (mkControlInst env .base sd)
        | some t =>
          match (env.registry.find? (fun p => p.1 = t)).map (fun p => p.2) with
          | none => some (mkControlInst env .base sd)
          | some p =>
            if !p.classAvailable then some (mkControlInst env .base sd)
            else if p.ctorThrows then some (mkControlInst env .base sd)
            else some (mkControlInst env (.subtype t) sd)

/-- A rendered node: its id attribute (the control UID) and its
appended child nodes. -/
inductive ElemTree where
  | mk (id : String) (children : List ElemTree)

mutual
/-- `Control.render()` for an instance created from `d`: create the
element, then `renderChildren` (styles/event wiring have no modelled
effect; subtype children-placement overrides are outside this model —
the claims below concern the base `Control.renderChildren`).  The
sanitized definition's `children` equals `d.children`, which equals the
instance's `children` field.  Returns the element tree, the contents of
`this.childControls`, and the error of an aborted run. -/
def renderControlD (env : FactoryEnv) :
    Definition → ControlInst → ElemTree × List ControlInst × Option String
  | .mk _ _ _ _ _ _ _ _ _ _ _ (some l) _, c =>
    let r := renderChildrenD env c.UID l
    (ElemTree.mk c.UID r.2.1, r.1, r.2.2)
  | .mk _ _ _ _ _ _ _ _ _ _ _ none _, c =>
    (ElemTree.mk c.UID [], [], none)
/-- `Control.renderChildren()`: for each child definition, create it
via the factory, link the parent back-reference, push it onto
`childControls`, render it and append its element.  `create` returning
`null` makes `childControl.parent = this` throw a `TypeError`, which
aborts the `forEach` (and the enclosing render); a child whose own
subtree rendering throws is already pushed but its element is never
appended.  Returns (childControls, appended elements, error). -/
def renderChildrenD (env : FactoryEnv) (parentUID : String) :
    List Definition → List ControlInst × List ElemTree × Option String
  | [] => ([], [], none)
  | d :: rest =>
    match create env (some d) with
    | none =>
      ([], [],
       some "TypeError: Cannot set properties of null (setting parent)")
    | some c0 =>
      let c := { c0 with parent := some parentUID }
      let r := renderControlD env d c
      match r.2.2 with
      | some m => ([c], [], some m)
      | none =>
        let rs := renderChildrenD env parentUID rest
        (c :: rs.1, r.1 :: rs.2.1, rs.2.2)
end

end ControlFactory

/-! ## Spec-side helper definitions used by the theorems below -/

namespace ControlEmit

/-- The locally registered handlers of a control for an event. -/
def handlersFor (c : EmitCtrl) (event : String) : List HandlerSpec :=
  (((c.eventListeners.find? (fun p => p.1 = event)).map (fun p => p.2)).getD [])

/-- The data object after bubbling past the controls `cs` (each hop
overwrites `source` with its own UID). -/
def augSource (data : List (String × JSVal)) (cs : List EmitCtrl) :
    List (String × JSVal) :=
  cs.foldl (fun d c => jsSet d "source" (.str c.uid)) data

/-- Specification of the full emit trace: ancestor `i` (0 = the
originating control) runs its handlers in registration order on the
data bubbled past ancestors `0..i-1`; in particular ancestor `i + 1`
sees `source` = UID of ancestor `i`, NOT necessarily the originating
control's UID. -/
def emitSpec (chain : List EmitCtrl) (event : String)
    (data : List (String × JSVal)) : List InvokeRec :=
  chain.enum.flatMap (fun p =>
    (handlersFor p.2 event).map (fun h =>
      ⟨p.2.uid, h.hid, augSource data (chain.take p.1), h.throws⟩))

end ControlEmit

namespace StateManager

/-- The key a per-key notification is for (`none` for a global one). -/
def noteKey : Note → Option String
  | .perKey _ _ _ k => some k
  | .global _ _ => none

end StateManager

namespace ContextRenderer

/-- "The literal text references key `k` under one of the three
placeholder syntaxes" — the invalidation criterion as the spec words
it, without the cache-key `'|'`-split. -/
def referencesKey (text : String) (k : String) : Bool :=
  containsSubstr text ("#\x7b" ++ k ++ "\x7d") ||
  containsSubstr text ("$\x7b" ++ k ++ "\x7d") ||
  containsSubstr text ("\x7b\x7b" ++ k ++ "\x7d\x7d")

end ContextRenderer

/-! Concrete scenario constants for counterexamples and witnesses. -/

namespace Scenarios

open EventHandler ControlDestroy ControlFactory Validation ControlEmit

/-- A world with one fresh element (id 1) and one with a `click`
handler (`user 7`) registered on it through `EventHandler.on`. -/
def ehW0 : EHWorld :=
  { elements := [(1, { uidEvent := none, listeners := [], attached := true })]
    eventRegistry := []
    uidEvent := 1
    wrapperNext := 0
    wrappers := []
    dataMap := [] }

def ehW1 : EHWorld := onEvent ehW0 1 "click" none (.user 7)

/-- A rendered leaf control on element 1. -/
def c4Ctrl : CtrlNode := .mk "c1" 1 []

/-- A two-element world for the error-free destroy witness: a parent
on element 1 with one child on element 2, no `EventHandler`
registrations anywhere. -/
def ehW2 : EHWorld :=
  { elements :=
      [(1, { uidEvent := none, listeners := [], attached := true }),
       (2, { uidEvent := none, listeners := [], attached := true })]
    eventRegistry := []
    uidEvent := 1
    wrapperNext := 0
    wrappers := []
    dataMap := [1, 2] }

def c4Tree : CtrlNode := .mk "p1" 1 [.mk "k1" 2 []]

/-- Emit chain: originating control `b1` (no local handlers), parent
`p1` with one `click` handler, grandparent `g1` with one `click`
handler. -/
def emitB1 : EmitCtrl := { uid := "b1", eventListeners := [] }

def emitP1 : EmitCtrl :=
  { uid := "p1", eventListeners := [("click", [⟨1, false⟩])] }

def emitG1 : EmitCtrl :=
  { uid := "g1", eventListeners := [("click", [⟨2, false⟩])] }

/-- Factory environment: the default registry and deterministic stand-ins
for the two UID generators. -/
def factoryEnv : FactoryEnv :=
  { registry := defaultRegistry
    genUID := fun t => (t.getD "control") ++ "-gen"
    ctorUID := "ctor-gen" }

/-- The same environment with `label` unregistered
(`ControlFactory.unregisterControl('label')`). -/
def factoryEnvNoLabel : FactoryEnv :=
  { factoryEnv with
    registry := defaultRegistry.filter (fun p => p.1 ≠ "label") }

/-- StateManager scenario: one key `a` with one subscriber (id 0) and
one global subscriber (id 9). -/
def smA : StateManager.SMState :=
  { state := [("a", .str "1")]
    listeners := [("a", [0])]
    globalListeners := [9]
    history := [] }

/-- ContextRenderer scenario for the cache claims. -/
def crK : ContextRenderer.CRState :=
  { context := [("K", .str "1")], renderCache := [], cacheEnabled := true }

/-- ContextRenderer scenario for the idempotence counterexample:
`A = "$"`, `B = "x"` (neither value contains a placeholder). -/
def crAB : ContextRenderer.CRState :=
  { context := [("A", .str "$"), ("B", .str "x")]
    renderCache := []
    cacheEnabled := true }

/-- StateManager scenario for the C3 witness: key `k` absent, one
subscriber (id 3) for `k`, one global subscriber (id 8). -/
def smB : StateManager.SMState :=
  { state := []
    listeners := [("k", [3])]
    globalListeners := [8]
    history := [] }

end Scenarios


/-! # Theorems -/

/-! ## Shared helper lemmas -/

theorem find?_map_replace (k : String) (v : JSVal) :
    ∀ st : List (String × JSVal),
    (st.map (fun p => if p.1 = k then (k, v) else p)).find? (fun p => p.1 = k) =
      (st.find? (fun p => p.1 = k)).map (fun _ => (k, v)) := by
  intro st
  induction st with
  | nil => rfl
  | cons p rest ih =>
    by_cases hp : p.1 = k
    · simp [List.find?_cons, hp]
    · simp only [List.map_cons, if_neg hp]
      rw [List.find?_cons, List.find?_cons]
      simp [hp, ih]

theorem jsLookup_jsSet_self (st : List (String × JSVal)) (k : String)
    (v : JSVal) : jsLookup (jsSet st k v) k = some v := by
  unfold jsSet jsLookup
  split
  · rw [find?_map_replace]
    rename_i hfind
    rw [Option.isSome_iff_exists] at hfind
    obtain ⟨p, hp⟩ := hfind
    rw [hp]
    rfl
  · rename_i hfind
    rw [Option.not_isSome_iff_eq_none] at hfind
    rw [List.find?_append, hfind]
    simp

theorem jsGet_jsSet_self (st : List (String × JSVal)) (k : String)
    (v : JSVal) : jsGet (jsSet st k v) k = v := by
  unfold jsGet
  rw [jsLookup_jsSet_self]
  rfl

theorem dedupFirst_go_mem (x : String) : ∀ (l seen : List String),
    x ∈ dedupFirst.go seen l ↔ x ∈ l ∧ x ∉ seen := by
  intro l
  induction l with
  | nil => simp [dedupFirst.go]
  | cons k rest ih =>
    intro seen
    rw [dedupFirst.go]
    by_cases hk : k ∈ seen
    · rw [if_pos hk, ih]
      constructor
      · rintro ⟨h1, h2⟩
        exact ⟨List.mem_cons_of_mem _ h1, h2⟩
      · rintro ⟨h1, h2⟩
        rcases List.mem_cons.mp h1 with h3 | h3
        · exact absurd (h3 ▸ hk) h2
        · exact ⟨h3, h2⟩
    · rw [if_neg hk]
      by_cases hx : x = k
      · subst hx
        simp [hk]
      · simp only [List.mem_cons, hx, false_or]
        rw [ih]
        simp [hx]

theorem dedupFirst_mem (x : String) (l : List String) :
    x ∈ dedupFirst l ↔ x ∈ l := by
  unfold dedupFirst
  rw [dedupFirst_go_mem]
  simp

theorem jsLookup_eq_none_of_not_mem (st : List (String × JSVal))
    (k : String) (h : k ∉ jsKeys st) : jsLookup st k = none := by
  unfold jsLookup
  have : st.find? (fun p => p.1 = k) = none := by
    rw [List.find?_eq_none]
    intro p hp
    simp only [decide_eq_true_eq]
    intro hk
    exact h (by simpa [jsKeys, hk] using List.mem_map_of_mem Prod.fst hp)
  rw [this]
  rfl

theorem containsSubstr_append_left (pat rest : String) :
    containsSubstr (pat ++ rest) pat = true := by
  unfold containsSubstr
  have hd : (pat ++ rest).data = pat.data ++ rest.data := by
    simp [String.data_append]
  rw [hd]
  cases hp : pat.data with
  | nil => simp [containsSubstr.go]
  | cons c cs =>
    simp only [List.cons_append]
    unfold containsSubstr.go
    have hpre : List.isPrefixOf (c :: cs) (c :: (cs ++ rest.data)) = true := by
      rw [List.isPrefixOf_iff_prefix]
      exact ⟨rest.data, by simp⟩
    simp [hpre]

/-! ## C3 — StateManager.setState notification ordering -/

/-- C3: for a key `k` not previously present in the store, calling
`setState(k, v1)` then `setState(k, v2)` notifies each per-key
subscriber of `k` exactly twice — with `(v1, undefined)` then
`(v2, v1)` — in subscription order, per-key subscribers before global
subscribers; the trace is the value each call returns, i.e. every
notification completes synchronously before the call returns. -/
theorem setState_notification_order (sm : StateManager.SMState)
    (k : String) (v1 v2 : JSVal) (h : jsLookup sm.state k = none) :
    (StateManager.setState sm k v1).2 =
      (StateManager.subsFor sm k).map
        (fun s => StateManager.Note.perKey s v1 .undefined k) ++
      sm.globalListeners.map
        (fun s => StateManager.Note.global s (.setStateEv k v1 .undefined)) ∧
    (StateManager.setState (StateManager.setState sm k v1).1 k v2).2 =
      (StateManager.subsFor sm k).map
        (fun s => StateManager.Note.perKey s v2 v1 k) ++
      sm.globalListeners.map
        (fun s => StateManager.Note.global s (.setStateEv k v2 v1)) := by
  unfold StateManager.setState StateManager.notifyStateChange
    StateManager.notifyGlobalListeners StateManager.subsFor StateManager.stGet
  constructor
  · simp [jsGet, h]
  · simp [jsGet, h, jsLookup_jsSet_self]

/-- Witness for C3 at a concrete store (key absent, one per-key and one
global subscriber). -/
theorem setState_notification_order_witness :
    jsLookup Scenarios.smB.state "k" = none ∧
    ((StateManager.setState Scenarios.smB "k" (.num 1)).2 =
      (StateManager.subsFor Scenarios.smB "k").map
        (fun s => StateManager.Note.perKey s (.num 1) .undefined "k") ++
      Scenarios.smB.globalListeners.map
        (fun s => StateManager.Note.global s (.setStateEv "k" (.num 1) .undefined)) ∧
    (StateManager.setState (StateManager.setState Scenarios.smB "k" (.num 1)).1
        "k" (.num 2)).2 =
      (StateManager.subsFor Scenarios.smB "k").map
        (fun s => StateManager.Note.perKey s (.num 2) (.num 1) "k") ++
      Scenarios.smB.globalListeners.map
        (fun s => StateManager.Note.global s (.setStateEv "k" (.num 2) (.num 1)))) :=
  ⟨rfl, setState_notification_order Scenarios.smB "k" (.num 1) (.num 2) rfl⟩

/-! ## C6 — importState / restoreSnapshot notification keys -/

/-- C6 counterexample: `importState` does NOT notify for the union of
old and new keys.  The old state has key `a` (with per-key subscriber
0); importing a state holding only `b` produces no per-key notification
at all — in particular none for the removed key `a` — while
`restoreSnapshot` on the same input does notify subscriber 0 of `a`
with `(undefined, "1")`. -/
theorem importState_no_union_counterexample :
    (StateManager.importState Scenarios.smA
        (some ⟨some [("b", .num 2)]⟩)).2.1 =
      [.global 9 (.importStateEv [("a", .str "1")] [("b", .num 2)])] ∧
    (StateManager.restoreSnapshot Scenarios.smA
        (some ⟨some [("b", .num 2)], "s"⟩)).2.1 =
      [.perKey 0 .undefined (.str "1") "a",
       .global 9 (.restoreSnapshotEv [("a", .str "1")] [("b", .num 2)])] :=
  ⟨rfl, rfl⟩

/-- C6 amended: `restoreSnapshot` notifies per-key subscribers for the
union of old and new keys (a key removed by the restore is notified
with `undefined` as new value), but `importState` notifies only keys of
the NEW state: a key present before the import and absent after it gets
no notification. -/
theorem import_restore_notification_keys (sm : StateManager.SMState)
    (newSt : List (String × JSVal)) (sid : String) (k : String) (s : Nat)
    (h1 : k ∈ jsKeys sm.state) (h2 : k ∉ jsKeys newSt)
    (h3 : s ∈ StateManager.subsFor sm k) :
    (∀ n ∈ (StateManager.importState sm (some ⟨some newSt⟩)).2.1,
      StateManager.noteKey n ≠ some k) ∧
    StateManager.Note.perKey s .undefined (StateManager.stGet sm.state k) k ∈
      (StateManager.restoreSnapshot sm (some ⟨some newSt, sid⟩)).2.1 := by
  constructor
  · intro n hn
    unfold StateManager.importState StateManager.notifyGlobalListeners at hn
    simp only [List.mem_append, List.mem_flatMap, List.mem_map] at hn
    rcases hn with ⟨k0, hk0, hnote⟩ | hglob
    · unfold StateManager.notifyStateChange at hnote
      simp only [List.mem_map] at hnote
      obtain ⟨s0, _, hs0⟩ := hnote
      subst hs0
      simp only [StateManager.noteKey, Option.some.injEq, ne_eq]
      intro hk
      exact h2 (hk ▸ hk0)
    · obtain ⟨s0, _, hs0⟩ := hglob
      subst hs0
      simp [StateManager.noteKey]
  · unfold StateManager.restoreSnapshot
    simp only [List.mem_append, List.mem_flatMap]
    left
    refine ⟨k, ?_, ?_⟩
    · rw [dedupFirst_mem]
      simp only [List.mem_append]
      exact Or.inl h1
    · unfold StateManager.notifyStateChange
      simp only [List.mem_map]
      refine ⟨s, ?_, ?_⟩
      · simpa [StateManager.subsFor] using h3
      · have : StateManager.stGet newSt k = .undefined := by
          unfold StateManager.stGet jsGet
          rw [jsLookup_eq_none_of_not_mem _ _ h2]
          rfl
        rw [this]

/-- Witness for C6 amended at the concrete scenario. -/
theorem import_restore_notification_keys_witness :
    ("a" ∈ jsKeys Scenarios.smA.state ∧ "a" ∉ jsKeys [("b", (.num 2 : JSVal))] ∧
     0 ∈ StateManager.subsFor Scenarios.smA "a") ∧
    ((∀ n ∈ (StateManager.importState Scenarios.smA
        (some ⟨some [("b", .num 2)]⟩)).2.1,
      StateManager.noteKey n ≠ some "a") ∧
    StateManager.Note.perKey 0 .undefined
        (StateManager.stGet Scenarios.smA.state "a") "a" ∈
      (StateManager.restoreSnapshot Scenarios.smA
        (some ⟨some [("b", .num 2)], "s"⟩)).2.1) :=
  ⟨⟨by simp [Scenarios.smA, jsKeys], by simp [jsKeys], by
      simp [Scenarios.smA, StateManager.subsFor]⟩,
   import_restore_notification_keys Scenarios.smA [("b", .num 2)] "s" "a" 0
     (by simp [Scenarios.smA, jsKeys]) (by simp [jsKeys])
     (by simp [Scenarios.smA, StateManager.subsFor])⟩

/-! ## C8 — unsafe expressions are rejected, placeholder left verbatim -/

/-- C8: if, after substituting the known context values into an
expression, the resulting string contains any character outside the
safe set (digits, whitespace, `+ - * /`, `.`, parentheses), then
`evaluateExpression` throws `Unsafe expression` without reaching the
evaluation step, and the expression pass of `render` emits the original
`#\x7b expr \x7d` placeholder text unchanged. -/
theorem unsafe_expression_rejected (expr : String)
    (ctx : List (String × JSVal))
    (h : ∃ c ∈ ContextRenderer.substituteKeys ctx expr.data,
      ContextRenderer.isSafeChar c = false) :
    ContextRenderer.evaluateExpression expr ctx =
      .error ("Unsafe expression: " ++ expr) ∧
    ContextRenderer.exprReplacement ctx expr.data =
      '#' :: '\x7b' :: (expr.data ++ ['\x7d']) := by
  obtain ⟨c, hc, hbad⟩ := h
  have hsafe : ContextRenderer.isSafeExpr
      (ContextRenderer.substituteKeys ctx expr.data) = false := by
    unfold ContextRenderer.isSafeExpr
    rw [Bool.and_eq_false_iff]
    right
    rw [List.all_eq_false]
    exact ⟨c, hc, by simp [hbad]⟩
  have h1 : ContextRenderer.evaluateExpression expr ctx =
      .error ("Unsafe expression: " ++ expr) := by
    unfold ContextRenderer.evaluateExpression
    simp [hsafe]
  refine ⟨h1, ?_⟩
  unfold ContextRenderer.exprReplacement
  have h2 : ContextRenderer.evaluateExpression (String.mk expr.data) ctx =
      .error ("Unsafe expression: " ++ expr) := h1
  rw [h2]

/-- Witness for C8: `a@b` has no context substitution and contains `@`. -/
theorem unsafe_expression_rejected_witness :
    (∃ c ∈ ContextRenderer.substituteKeys [] "a@b".data,
      ContextRenderer.isSafeChar c = false) ∧
    (ContextRenderer.evaluateExpression "a@b" [] =
      .error ("Unsafe expression: " ++ "a@b") ∧
    ContextRenderer.exprReplacement [] "a@b".data =
      '#' :: '\x7b' :: ("a@b".data ++ ['\x7d'])) :=
  ⟨⟨'a', by decide⟩, unsafe_expression_rejected "a@b" [] ⟨'a', by decide⟩⟩

/-! ## C9 — render idempotence -/

/-- C9 counterexample: with context `A = "$"`, `B = "x"` (neither value
contains any placeholder, so the text below has no nested
placeholders), rendering `"${A}{B}"` substitutes `A` in the `$`-pass
whose scan continues past the replacement, leaving `"${B}"` — a brand
new placeholder assembled from the substituted `"$"` and the adjacent
`"{B}"`.  Rendering the result again substitutes `B`, so
`render(render(text)) ≠ render(text)`. -/
theorem render_not_idempotent_counterexample :
    ContextRenderer.renderPure Scenarios.crAB.context "$" = "$" ∧
    ContextRenderer.renderPure Scenarios.crAB.context "x" = "x" ∧
    (ContextRenderer.render Scenarios.crAB "$\x7bA\x7d\x7bB\x7d" []).1 =
      "$\x7bB\x7d" ∧
    (ContextRenderer.render
        (ContextRenderer.render Scenarios.crAB "$\x7bA\x7d\x7bB\x7d" []).2
        "$\x7bB\x7d" []).1 = "x" ∧
    ("x" : String) ≠ "$\x7bB\x7d" :=
  ⟨rfl, rfl, rfl, rfl, by decide⟩

/-- C9 amended: rendering is idempotent whenever each of the four
substitution passes leaves the rendered output unchanged — i.e. the
output contains no placeholder any pass would rewrite.  (As the
counterexample shows, "text contains no nested placeholders" does not
suffice: a substituted value can splice with adjacent text into a new
placeholder that survives into the output.) -/
theorem render_idempotent_of_pass_fixpoints (ctx : List (String × JSVal))
    (text : String)
    (h1 : ContextRenderer.replaceBare '#' '\x7b' ['\x7d'] ctx
      (ContextRenderer.renderPure ctx text).data =
      (ContextRenderer.renderPure ctx text).data)
    (h2 : ContextRenderer.replaceBare '$' '\x7b' ['\x7d'] ctx
      (ContextRenderer.renderPure ctx text).data =
      (ContextRenderer.renderPure ctx text).data)
    (h3 : ContextRenderer.replaceBare '\x7b' '\x7b' ['\x7d', '\x7d'] ctx
      (ContextRenderer.renderPure ctx text).data =
      (ContextRenderer.renderPure ctx text).data)
    (h4 : ContextRenderer.replaceExprs ctx
      (ContextRenderer.renderPure ctx text).data =
      (ContextRenderer.renderPure ctx text).data) :
    ContextRenderer.renderPure ctx (ContextRenderer.renderPure ctx text) =
      ContextRenderer.renderPure ctx text := by
  set r := ContextRenderer.renderPure ctx text with hr
  conv_lhs => unfold ContextRenderer.renderPure
  rw [h1, h2, h3, h4]

/-- Witness for C9 amended: `"Hi #\x7bUserName\x7d"` renders to `"Hi Ann"`,
on which every pass is the identity. -/
theorem render_idempotent_of_pass_fixpoints_witness :
    (ContextRenderer.replaceBare '#' '\x7b' ['\x7d']
        [("UserName", JSVal.str "Ann")]
        (ContextRenderer.renderPure [("UserName", JSVal.str "Ann")]
          "Hi #\x7bUserName\x7d").data =
      (ContextRenderer.renderPure [("UserName", JSVal.str "Ann")]
        "Hi #\x7bUserName\x7d").data) ∧
    (ContextRenderer.renderPure [("UserName", JSVal.str "Ann")]
        (ContextRenderer.renderPure [("UserName", JSVal.str "Ann")]
          "Hi #\x7bUserName\x7d") =
      ContextRenderer.renderPure [("UserName", JSVal.str "Ann")]
        "Hi #\x7bUserName\x7d") :=
  ⟨rfl, render_idempotent_of_pass_fixpoints [("UserName", JSVal.str "Ann")]
    "Hi #\x7bUserName\x7d" rfl rfl rfl rfl⟩

/-! ## C5 — emit bubbling and the source UID -/

/-- C5 counterexample: emitting `click` on `b1` (parent `p1`, grandparent
`g1`, each with one subscribed `click` handler) delivers
`source = "b1"` to the parent but `source = "p1"` — not the originating
UID — to the grandparent: each bubble hop overwrites `source` with its
own UID. -/
theorem emit_source_not_origin_counterexample :
    ControlEmit.emitChain [Scenarios.emitB1, Scenarios.emitP1, Scenarios.emitG1]
        "click" [] =
      [⟨"p1", 1, [("source", .str "b1")], false⟩,
       ⟨"g1", 2, [("source", .str "p1")], false⟩] ∧
    JSVal.str "p1" ≠ JSVal.str "b1" :=
  ⟨rfl, by simp⟩

theorem emit_aux (ev : String) (data0 : List (String × JSVal)) :
    ∀ (rest pre : List ControlEmit.EmitCtrl),
    ControlEmit.emitChain rest ev (ControlEmit.augSource data0 pre) =
      (List.enumFrom pre.length rest).flatMap
        (fun p => (ControlEmit.handlersFor p.2 ev).map
          (fun h => ⟨p.2.uid, h.hid,
            ControlEmit.augSource data0 ((pre ++ rest).take p.1), h.throws⟩)) := by
  intro rest
  induction rest with
  | nil => intro pre; rfl
  | cons c rs ih =>
    intro pre
    rw [ControlEmit.emitChain]
    have hset : jsSet (ControlEmit.augSource data0 pre) "source" (.str c.uid) =
        ControlEmit.augSource data0 (pre ++ [c]) := by
      unfold ControlEmit.augSource
      rw [List.foldl_append]
      rfl
    rw [hset, ih (pre ++ [c])]
    rw [List.enumFrom, List.flatMap_cons]
    congr 1
    · simp only [List.take_left]
      rfl
    · simp [List.append_assoc]

/-- C5 amended: `emit` synchronously invokes every locally registered
handler in registration order — a throwing handler is recorded like any
other and does not stop later handlers or the bubble step — and each
ancestor receives the event data with `source` overwritten by the UID
of its IMMEDIATE child on the bubble path, so only the direct parent of
the originating control sees the originating control's UID as
`source`.  `emitSpec` states exactly that trace. -/
theorem emitChain_eq_emitSpec (chain : List ControlEmit.EmitCtrl)
    (event : String) (data : List (String × JSVal)) :
    ControlEmit.emitChain chain event data =
      ControlEmit.emitSpec chain event data := by
  have h := emit_aux event data chain []
  simpa [ControlEmit.emitSpec, ControlEmit.augSource, List.enum] using h

/-! ## C7 — cache invalidation on context change -/

/-- C7 counterexample: the invalidation test splits the cache key on
`'|'` and inspects only the FIRST segment, so a cached text containing
`'|'` (here `"a|#\x7bK\x7d"`) survives invalidation of `K` even though it
references `K`; the next render then returns the stale `"a|1"` although
a fresh render under the updated context yields `"a|2"`. -/
theorem cache_invalidation_stale_counterexample :
    ContextRenderer.referencesKey "a|#\x7bK\x7d" "K" = true ∧
    (ContextRenderer.updateContext
        (ContextRenderer.render Scenarios.crK "a|#\x7bK\x7d" []).2
        [("K", .str "2")]).1.renderCache =
      [("a|#\x7bK\x7d|\x7b\x7d", "a|1")] ∧
    (ContextRenderer.render
        (ContextRenderer.updateContext
          (ContextRenderer.render Scenarios.crK "a|#\x7bK\x7d" []).2
          [("K", .str "2")]).1 "a|#\x7bK\x7d" []).1 = "a|1" ∧
    ContextRenderer.renderPure
        (ContextRenderer.mergeCtx
          (ContextRenderer.updateContext
            (ContextRenderer.render Scenarios.crK "a|#\x7bK\x7d" []).2
            [("K", .str "2")]).1.context [])
        "a|#\x7bK\x7d" = "a|2" ∧
    ("a|1" : String) ≠ "a|2" :=
  ⟨rfl, rfl, rfl, rfl, by decide⟩

theorem takeWhile_append_bar (l1 l2 : List Char) (h : ∀ c ∈ l1, c ≠ '|') :
    (l1 ++ '|' :: l2).takeWhile (fun c => c ≠ '|') = l1 := by
  induction l1 with
  | nil => simp [List.takeWhile]
  | cons c cs ih =>
    have hc : c ≠ '|' := h c (List.mem_cons_self c cs)
    rw [List.cons_append, List.takeWhile_cons]
    rw [if_pos (by simp [hc])]
    rw [ih (fun x hx => h x (List.mem_cons_of_mem c hx))]

theorem affectedByChange_of_no_bar (ks : List String) (text : String)
    (custom : List (String × JSVal)) (h : ∀ c ∈ text.data, c ≠ '|') :
    ContextRenderer.affectedByChange ks
        (ContextRenderer.createCacheKey text custom) =
      ks.any (fun k => ContextRenderer.referencesKey text k) := by
  unfold ContextRenderer.affectedByChange ContextRenderer.createCacheKey
  have hd : (text ++ "|" ++ ContextRenderer.hashObject custom).data =
      text.data ++ '|' :: (ContextRenderer.hashObject custom).data := by
    simp [String.data_append]
  rw [hd, takeWhile_append_bar _ _ h]
  rfl

/-- C7 amended: for a cached entry whose literal text does not contain
the cache-key separator `'|'`, invalidation for a nonempty changed-key
list removes the entry exactly when the text references one of the
changed keys under one of the three placeholder syntaxes; an empty
changed-key list flushes the whole cache.  (When the text contains
`'|'`, only the part before the first `'|'` is tested, and a stale
entry can survive — see the counterexample.) -/
theorem invalidateCache_removes_referencing (ks : List String)
    (cache : List (String × String)) (text : String)
    (custom : List (String × JSVal)) (v : String)
    (hks : ks ≠ []) (hbar : ∀ c ∈ text.data, c ≠ '|') :
    ((ContextRenderer.createCacheKey text custom, v) ∈
        ContextRenderer.invalidateCache ks cache ↔
      (ContextRenderer.createCacheKey text custom, v) ∈ cache ∧
        ¬ ks.any (fun k => ContextRenderer.referencesKey text k) = true) ∧
    ContextRenderer.invalidateCache [] cache = [] := by
  constructor
  · unfold ContextRenderer.invalidateCache
    rw [if_neg hks]
    rw [List.mem_filter]
    rw [affectedByChange_of_no_bar ks text custom hbar]
    simp
  · rfl

/-- Witness for C7 amended: a `'|'`-free text referencing the changed
key is removed by invalidation. -/
theorem invalidateCache_removes_referencing_witness :
    ((["K"] : List String) ≠ [] ∧ (∀ c ∈ ("b#\x7bK\x7d" : String).data, c ≠ '|')) ∧
    (((ContextRenderer.createCacheKey "b#\x7bK\x7d" [], "old") ∈
        ContextRenderer.invalidateCache ["K"]
          [(ContextRenderer.createCacheKey "b#\x7bK\x7d" [], "old")] ↔
      (ContextRenderer.createCacheKey "b#\x7bK\x7d" [], "old") ∈
          [(ContextRenderer.createCacheKey "b#\x7bK\x7d" [], "old")] ∧
        ¬ (["K"].any (fun k => ContextRenderer.referencesKey "b#\x7bK\x7d" k)) = true) ∧
    ContextRenderer.invalidateCache []
      [(ContextRenderer.createCacheKey "b#\x7bK\x7d" [], "old")] = []) :=
  ⟨⟨by decide, by decide⟩,
   invalidateCache_removes_referencing ["K"]
     [(ContextRenderer.createCacheKey "b#\x7bK\x7d" [], "old")]
     "b#\x7bK\x7d" [] "old" (by decide) (by decide)⟩

/-! ## C1 — renderChildren and failing children -/

/-- C1 counterexample: a child whose construction fails
(`create` returns `null` for the invalid type) makes
`childControl.parent = this` throw, aborting `renderChildren`: with
children `[not-a-real-type, label]`, NO child is constructed or
appended (the valid `label` sibling is lost); with children
`[label, not-a-real-type]`, only the preceding sibling was constructed
before the abort, and nothing is appended. -/
theorem renderChildren_abort_counterexample :
    (ControlFactory.create Scenarios.factoryEnv
      (some (Validation.defnOfType "not-a-real-type"))).isNone = true ∧
    (ControlFactory.renderChildrenD Scenarios.factoryEnv "p1"
      [Validation.defnOfType "not-a-real-type",
       Validation.defnOfType "label"]).1.length = 0 ∧
    (ControlFactory.renderChildrenD Scenarios.factoryEnv "p1"
      [Validation.defnOfType "not-a-real-type",
       Validation.defnOfType "label"]).2.2.isSome = true ∧
    (ControlFactory.renderChildrenD Scenarios.factoryEnv "p1"
      [Validation.defnOfType "label",
       Validation.defnOfType "not-a-real-type"]).1.length = 1 ∧
    (ControlFactory.renderChildrenD Scenarios.factoryEnv "p1"
      [Validation.defnOfType "label",
       Validation.defnOfType "not-a-real-type"]).2.1.length = 1 ∧
    (ControlFactory.renderChildrenD Scenarios.factoryEnv "p1"
      [Validation.defnOfType "label",
       Validation.defnOfType "not-a-real-type"]).2.2.isSome = true :=
  ⟨rfl, rfl, rfl, rfl, rfl, rfl⟩

/-- C1 amended: errors during a child's construction are NOT caught per
child — whenever any child definition in the list fails construction
(`create` returns `null`), `renderChildren` throws, aborting the
rendering of the remaining siblings and of the parent's subtree
(per-item isolation exists only in `ControlFactory.createBatch`). -/
theorem renderChildren_aborts_on_failing_child (env : ControlFactory.FactoryEnv)
    (p : String) (ds : List Validation.Definition)
    (h : ∃ d ∈ ds, (ControlFactory.create env (some d)).isNone = true) :
    (ControlFactory.renderChildrenD env p ds).2.2.isSome = true := by
  induction ds with
  | nil => simp at h
  | cons d rest ih =>
    obtain ⟨d0, hd0, hnone⟩ := h
    rw [ControlFactory.renderChildrenD]
    rcases List.mem_cons.mp hd0 with heq | hmem
    · subst heq
      rw [Option.isNone_iff_eq_none] at hnone
      rw [hnone]
      rfl
    · cases hcd : ControlFactory.create env (some d) with
      | none => rfl
      | some c0 =>
        simp only
        split
        · rfl
        · exact ih ⟨d0, hmem, hnone⟩

/-- Witness for C1 amended: the second child fails construction. -/
theorem renderChildren_aborts_on_failing_child_witness :
    (∃ d ∈ [Validation.defnOfType "label",
            Validation.defnOfType "not-a-real-type"],
      (ControlFactory.create Scenarios.factoryEnv (some d)).isNone = true) ∧
    (ControlFactory.renderChildrenD Scenarios.factoryEnv "p1"
      [Validation.defnOfType "label",
       Validation.defnOfType "not-a-real-type"]).2.2.isSome = true :=
  ⟨⟨Validation.defnOfType "not-a-real-type",
    List.mem_cons_of_mem _ (List.mem_cons_self _ _), rfl⟩,
   renderChildren_aborts_on_failing_child Scenarios.factoryEnv "p1" _
     ⟨Validation.defnOfType "not-a-real-type",
      List.mem_cons_of_mem _ (List.mem_cons_self _ _), rfl⟩⟩

/-! ## C2 — unknown control types and the base-Control fallback -/

/-- C2 counterexample: for a type string that is not registered,
`create` returns `null` (the validation step flags `Invalid control
type` as critical), NOT a live base `Control` instance. -/
theorem create_unknown_type_counterexample :
    (ControlFactory.create Scenarios.factoryEnv
      (some (Validation.defnOfType "not-a-real-type"))).isNone = true ∧
    (ControlFactory.create Scenarios.factoryEnv
      (some (Validation.defnOfType "input"))).isNone = true :=
  ⟨rfl, rfl⟩

theorem validateTypeSpecific_unknown (t : String)
    (h : t ∉ Validation.VALID_CONTROL_TYPES) :
    Validation.validateTypeSpecific (Validation.defnOfType t) = ([], []) := by
  unfold Validation.validateTypeSpecific
  simp only [Validation.defnOfType, Validation.Definition.type_]
  split
  all_goals rename_i heq
  all_goals first
    | rfl
    | (injection heq with heq2
       subst heq2
       exact absurd (by decide) h)

theorem validate_unknown_errors (gen : Option String → String) (t : String)
    (h1 : t ∉ Validation.VALID_CONTROL_TYPES) (h2 : t ≠ "") :
    (Validation.validateControlDefinition gen (Validation.defnOfType t)).errors =
      ["Invalid control type: " ++ t ++ ". Valid types: " ++
        Validation.validTypesJoined] := by
  have hcon : Validation.VALID_CONTROL_TYPES.contains t = false := by
    simpa using h1
  show (Validation.validateControlDefinition gen
    (.mk (some t) none none none none none none none none none none none [])).errors = _
  rw [Validation.validateControlDefinition]
  simp only [Validation.validateBasicStructure, Validation.Definition.type_,
    Validation.Definition.UID, Validation.Definition.state,
    Validation.Definition.extraKeys, Option.isNone_none, Option.isNone_some]
  have hts := validateTypeSpecific_unknown t h1
  unfold Validation.defnOfType at hts
  rw [hts]
  simp [hcon, h2, h1]

theorem containsSubstr_of_prefix (s pat : String)
    (h : pat.data <+: s.data) : containsSubstr s pat = true := by
  unfold containsSubstr
  cases hp : pat.data with
  | nil => simp [containsSubstr.go]
  | cons c cs =>
    rw [hp] at h
    obtain ⟨rest, hrest⟩ := h
    rw [← hrest]
    simp only [List.cons_append]
    unfold containsSubstr.go
    have hpre : List.isPrefixOf (c :: cs) (c :: (cs ++ rest)) = true := by
      rw [List.isPrefixOf_iff_prefix]
      exact ⟨rest, by simp⟩
    simp [hpre]

theorem validate_isValid_eq (gen : Option String → String)
    (d : Validation.Definition) :
    (Validation.validateControlDefinition gen d).isValid =
      (Validation.validateControlDefinition gen d).errors.isEmpty := by
  cases d
  rfl

theorem create_none_of_unknown_type (env : ControlFactory.FactoryEnv)
    (t : String) (h1 : t ∉ Validation.VALID_CONTROL_TYPES) (h2 : t ≠ "") :
    ControlFactory.create env (some (Validation.defnOfType t)) = none := by
  have herr := validate_unknown_errors env.genUID t h1 h2
  have hval : (Validation.validateControlDefinition env.genUID
      (Validation.defnOfType t)).isValid = false := by
    rw [validate_isValid_eq, herr]
    rfl
  have hM : containsSubstr
      ("Invalid control type: " ++ t ++ ". Valid types: " ++
        Validation.validTypesJoined) "Invalid control type" = true := by
    apply containsSubstr_of_prefix
    have hd : ("Invalid control type: " ++ t ++ ". Valid types: " ++
        Validation.validTypesJoined).data =
        ("Invalid control type: ".data) ++
          (t.data ++ (". Valid types: ".data ++ Validation.validTypesJoined.data)) := by
      simp [String.data_append]
    rw [hd]
    refine List.IsPrefix.trans ?_ (List.prefix_append _ _)
    rw [← List.isPrefixOf_iff_prefix]
    decide
  have hcrit : (ControlFactory.criticalErrors
      (Validation.validateControlDefinition env.genUID
        (Validation.defnOfType t)).errors).isEmpty = false := by
    rw [herr]
    unfold ControlFactory.criticalErrors
    simp [hM]
  have htt : ControlFactory.typeTruthy (Validation.defnOfType t) = true := by
    simp [ControlFactory.typeTruthy, Validation.defnOfType,
      Validation.Definition.type_, h2]
  unfold ControlFactory.create
  simp [htt, hval, hcrit]

theorem create_base_of_lookup_none (env : ControlFactory.FactoryEnv)
    (df : Validation.Definition) (t : String)
    (h1 : ControlFactory.typeTruthy df = true)
    (h2 : (ControlFactory.criticalErrors
      (Validation.validateControlDefinition env.genUID df).errors).isEmpty = true)
    (h3 : ((Validation.validateControlDefinition env.genUID
      df).sanitizedDefinition.getD df).type_ = some t)
    (h4 : env.registry.find? (fun p => p.1 = t) = none) :
    ControlFactory.create env (some df) =
      some (ControlFactory.mkControlInst env .base
        ((Validation.validateControlDefinition env.genUID
          df).sanitizedDefinition.getD df)) := by
  unfold ControlFactory.create
  dsimp only
  rw [h1]
  simp only [Bool.not_true, Bool.false_eq_true, if_false, h2, Bool.and_false]
  rw [h3]
  dsimp only
  rw [h4]
  rfl

/-- C2 amended: a definition whose `type` string is outside
`Validation.VALID_CONTROL_TYPES` is rejected by `create` with `null`
(the `Invalid control type` validation error is in the critical
subset) — so an unregistered unknown type does NOT degrade to a base
`Control`.  The base-Control fallback arises exactly for a type that
validation accepts but that the factory registry cannot resolve (e.g.
after `unregisterControl`, or when the registered global class is
unavailable, or its constructor throws); `null` would additionally
require the base fallback construction itself to fail, which the base
constructor (plain field copies) cannot. -/
theorem create_unknown_vs_unregistered (env : ControlFactory.FactoryEnv)
    (t : String) :
    (t ∉ Validation.VALID_CONTROL_TYPES → t ≠ "" →
      ControlFactory.create env (some (Validation.defnOfType t)) = none) ∧
    (t ∈ Validation.VALID_CONTROL_TYPES →
      env.registry.find? (fun p => p.1 = t) = none →
      ControlFactory.create env (some (Validation.defnOfType t)) =
        some (ControlFactory.mkControlInst env .base
          ((Validation.validateControlDefinition env.genUID
            (Validation.defnOfType t)).sanitizedDefinition.getD
            (Validation.defnOfType t)))) := by
  constructor
  · intro h1 h2
    exact create_none_of_unknown_type env t h1 h2
  · intro ht hl
    fin_cases ht
    all_goals exact create_base_of_lookup_none env _ _ rfl rfl rfl hl

/-- Witness for C2 amended: an unknown type yields `null`; a valid type
removed from the registry yields a base-class instance. -/
theorem create_unknown_vs_unregistered_witness :
    ("not-a-real-type" ∉ Validation.VALID_CONTROL_TYPES ∧
      ("not-a-real-type" : String) ≠ "" ∧
      ControlFactory.create Scenarios.factoryEnv
        (some (Validation.defnOfType "not-a-real-type")) = none) ∧
    ("label" ∈ Validation.VALID_CONTROL_TYPES ∧
      Scenarios.factoryEnvNoLabel.registry.find? (fun p => p.1 = "label") = none ∧
      ControlFactory.create Scenarios.factoryEnvNoLabel
        (some (Validation.defnOfType "label")) =
        some (ControlFactory.mkControlInst Scenarios.factoryEnvNoLabel .base
          ((Validation.validateControlDefinition
            Scenarios.factoryEnvNoLabel.genUID
            (Validation.defnOfType "label")).sanitizedDefinition.getD
            (Validation.defnOfType "label")))) :=
  ⟨⟨by decide, by decide,
    (create_unknown_vs_unregistered Scenarios.factoryEnv "not-a-real-type").1
      (by decide) (by decide)⟩,
   ⟨by decide, rfl,
    (create_unknown_vs_unregistered Scenarios.factoryEnvNoLabel "label").2
      (by decide) rfl⟩⟩

/-! ## C10 — handler-specific `off` is a no-op -/

theorem find?_kmap_self {α β : Type} [DecidableEq α] (k : α) (v : β) :
    ∀ l : List (α × β),
    (l.map (fun p => if p.1 = k then (k, v) else p)).find? (fun p => p.1 = k) =
      (l.find? (fun p => p.1 = k)).map (fun _ => (k, v)) := by
  intro l
  induction l with
  | nil => rfl
  | cons p rest ih =>
    by_cases hp : p.1 = k
    · simp [List.find?_cons, hp]
    · simp only [List.map_cons, if_neg hp]
      rw [List.find?_cons, List.find?_cons]
      simp [hp, ih]

theorem find?_kmap_ne {α β : Type} [DecidableEq α] (k j : α) (v : β)
    (h : j ≠ k) :
    ∀ l : List (α × β),
    (l.map (fun p => if p.1 = k then (k, v) else p)).find? (fun p => p.1 = j) =
      l.find? (fun p => p.1 = j) := by
  intro l
  induction l with
  | nil => rfl
  | cons p rest ih =>
    by_cases hpk : p.1 = k
    · have hpj : ¬ (p.1 = j) := fun hpj => h (hpj.symm.trans hpk)
      have hkj : ¬ (k = j) := fun hc => h hc.symm
      simp only [List.map_cons, if_pos hpk]
      rw [List.find?_cons, List.find?_cons]
      simp [hkj, hpj, ih]
    · by_cases hpj : p.1 = j
      · simp only [List.map_cons, if_neg hpk]
        rw [List.find?_cons, List.find?_cons]
        simp [hpj]
      · simp only [List.map_cons, if_neg hpk]
        rw [List.find?_cons, List.find?_cons]
        simp [hpj, ih]

theorem getElem_setElem_self (w : EventHandler.EHWorld) (i : Nat)
    (st : EventHandler.ElemSt) :
    EventHandler.getElem (EventHandler.setElem w i st) i =
      (EventHandler.getElem w i).map (fun _ => st) := by
  unfold EventHandler.getElem EventHandler.setElem
  simp only
  rw [find?_kmap_self]
  cases w.elements.find? (fun p => p.1 = i) <;> rfl

theorem getElem_setElem_ne (w : EventHandler.EHWorld) (i : Nat)
    (st : EventHandler.ElemSt) (j : Nat) (h : j ≠ i) :
    EventHandler.getElem (EventHandler.setElem w i st) j =
      EventHandler.getElem w j := by
  unfold EventHandler.getElem EventHandler.setElem
  simp only
  rw [find?_kmap_ne _ _ _ h]

theorem foldl_proj {α β γ : Type} (g : α → γ) (f : α → β → α)
    (h : ∀ a b, g (f a b) = g a) :
    ∀ (l : List β) (a : α), g (l.foldl f a) = g a := by
  intro l
  induction l with
  | nil => intro a; rfl
  | cons b rest ih => intro a; rw [List.foldl_cons, ih, h]

theorem ehGetElem_congr (w w2 : EventHandler.EHWorld)
    (h : w2.elements = w.elements) (j : Nat) :
    EventHandler.getElem w2 j = EventHandler.getElem w j := by
  unfold EventHandler.getElem
  rw [h]

theorem getElementEvents_preserves (w : EventHandler.EHWorld) (i : Nat) :
    (∀ j, (EventHandler.getElem (EventHandler.getElementEvents w i).2 j).map
        (fun e => e.listeners) =
      (EventHandler.getElem w j).map (fun e => e.listeners)) ∧
    (EventHandler.getElementEvents w i).2.wrappers = w.wrappers := by
  unfold EventHandler.getElementEvents
  cases hge : EventHandler.getElem w i with
  | none => exact ⟨fun j => rfl, rfl⟩
  | some e =>
    dsimp only
    cases he : e.uidEvent with
    | some u =>
      dsimp only
      cases hr : EventHandler.registryGet w u with
      | some ev => exact ⟨fun j => rfl, rfl⟩
      | none => exact ⟨fun j => rfl, rfl⟩
    | none =>
      dsimp only
      cases hr : EventHandler.registryGet
          (EventHandler.setElem { w with uidEvent := w.uidEvent + 1 } i
            { e with uidEvent := some w.uidEvent }) w.uidEvent with
      | some ev =>
        dsimp only
        refine ⟨fun j => ?_, rfl⟩
        by_cases hj : j = i
        · subst hj
          rw [getElem_setElem_self, show EventHandler.getElem
              { w with uidEvent := w.uidEvent + 1 } j =
              EventHandler.getElem w j from rfl, hge]
          rfl
        · rw [getElem_setElem_ne _ _ _ _ hj]
          rfl
      | none =>
        dsimp only
        refine ⟨fun j => ?_, rfl⟩
        by_cases hj : j = i
        · subst hj
          rw [show EventHandler.getElem (EventHandler.registrySet
              (EventHandler.setElem { w with uidEvent := w.uidEvent + 1 } j
                { e with uidEvent := some w.uidEvent }) w.uidEvent []) j =
              EventHandler.getElem (EventHandler.setElem
                { w with uidEvent := w.uidEvent + 1 } j
                { e with uidEvent := some w.uidEvent }) j from rfl]
          rw [getElem_setElem_self, show EventHandler.getElem
              { w with uidEvent := w.uidEvent + 1 } j =
              EventHandler.getElem w j from rfl, hge]
          rfl
        · rw [show EventHandler.getElem (EventHandler.registrySet
              (EventHandler.setElem { w with uidEvent := w.uidEvent + 1 } i
                { e with uidEvent := some w.uidEvent }) w.uidEvent []) j =
              EventHandler.getElem (EventHandler.setElem
                { w with uidEvent := w.uidEvent + 1 } i
                { e with uidEvent := some w.uidEvent }) j from rfl]
          rw [getElem_setElem_ne _ _ _ _ hj]
          rfl

theorem offRemoveStep_user (i : Nat) (orig : String) (hid : Nat)
    (wA : EventHandler.EHWorld) (wid : Nat) :
    EventHandler.offRemoveStep i orig (some (.user hid)) wA wid = wA := by
  unfold EventHandler.offRemoveStep
  rw [if_neg]
  rintro (h | h)
  · simp at h
  · simp at h

theorem offKeyStep_user_preserves (i : Nat) (orig : String)
    (sel : Option String) (hid uid : Nat) (wAcc : EventHandler.EHWorld)
    (key : String) :
    (EventHandler.offKeyStep i orig sel (some (.user hid)) uid wAcc key).elements
        = wAcc.elements ∧
    (EventHandler.offKeyStep i orig sel (some (.user hid)) uid wAcc key).wrappers
        = wAcc.wrappers := by
  unfold EventHandler.offKeyStep
  cases hr : EventHandler.registryGet wAcc uid with
  | none => exact ⟨rfl, rfl⟩
  | some evs =>
    dsimp only
    cases hed : EventHandler.eventsGet evs key with
    | none => exact ⟨rfl, rfl⟩
    | some eventData =>
      dsimp only
      rw [foldl_proj (fun w => w) (EventHandler.offRemoveStep i orig
        (some (.user hid))) (offRemoveStep_user i orig hid)]
      exact ⟨rfl, rfl⟩

theorem offFinish_pres (uid : Nat) (w2 : EventHandler.EHWorld) :
    (EventHandler.offFinish uid w2).elements = w2.elements ∧
    (EventHandler.offFinish uid w2).wrappers = w2.wrappers := by
  unfold EventHandler.offFinish
  cases hr : EventHandler.registryGet w2 uid with
  | none => exact ⟨rfl, rfl⟩
  | some evs2 =>
    dsimp only
    by_cases he : evs2.isEmpty
    · rw [if_pos he]; exact ⟨rfl, rfl⟩
    · rw [if_neg he]; exact ⟨rfl, rfl⟩

theorem offSingle_user_preserves (w : EventHandler.EHWorld) (i : Nat)
    (ev : String) (sel : Option String) (hid : Nat) :
    (∀ j, (EventHandler.getElem
        (EventHandler.offSingle w i ev sel (some (.user hid))) j).map
        (fun e => e.listeners) =
      (EventHandler.getElem w j).map (fun e => e.listeners)) ∧
    (EventHandler.offSingle w i ev sel (some (.user hid))).wrappers =
      w.wrappers := by
  obtain ⟨hL, hW⟩ := getElementEvents_preserves w i
  unfold EventHandler.offSingle
  rcases hge : EventHandler.getElementEvents w i with ⟨uid, w1⟩
  rw [hge] at hL hW
  dsimp only at hL hW ⊢
  rcases hne : EventHandler.normalizeEventType ev with ⟨orig, ns⟩
  dsimp only
  split
  · exact ⟨hL, hW⟩
  · have hfoldE := foldl_proj (fun w => w.elements)
      (EventHandler.offKeyStep i orig sel (some (.user hid)) uid)
      (fun a k => (offKeyStep_user_preserves i orig sel hid uid a k).1)
    have hfoldW := foldl_proj (fun w => w.wrappers)
      (EventHandler.offKeyStep i orig sel (some (.user hid)) uid)
      (fun a k => (offKeyStep_user_preserves i orig sel hid uid a k).2)
    refine ⟨fun j => ?_, ?_⟩
    · rw [ehGetElem_congr _ _ ((offFinish_pres uid _).1.trans (hfoldE _ _)) j]
      exact hL j
    · rw [(offFinish_pres uid _).2]
      exact (hfoldW _ _).trans hW

theorem dispatchSelf_congr (w w2 : EventHandler.EHWorld) (j : Nat) (t : String)
    (hL : (EventHandler.getElem w2 j).map (fun e => e.listeners) =
      (EventHandler.getElem w j).map (fun e => e.listeners))
    (hW : w2.wrappers = w.wrappers) :
    EventHandler.dispatchSelf w2 j t = EventHandler.dispatchSelf w j t := by
  unfold EventHandler.dispatchSelf
  cases h1 : EventHandler.getElem w j with
  | none =>
    rw [h1] at hL
    cases h2 : EventHandler.getElem w2 j with
    | none => rfl
    | some e2 => rw [h2] at hL; exact Option.noConfusion hL
  | some e =>
    rw [h1] at hL
    cases h2 : EventHandler.getElem w2 j with
    | none => rw [h2] at hL; exact Option.noConfusion hL
    | some e2 =>
      rw [h2] at hL
      have hl2 : e2.listeners = e.listeners := Option.some.inj hL
      dsimp only
      rw [hW, hl2]

/-- C10 counterexample (the `cleanupElement` clause is wrong): with one
handler registered through `on`, `cleanupElement` throws the
`TypeError` from `off(element)` — the element's `uidEvent` is set, so
`off` is reached with `event === undefined` — and detaches nothing: the
handler still fires afterwards.  The other clauses of the claim do
hold on this world: `off` with the original handler reference returns
the world unchanged (the registry stores wrappers, never
reference-equal to the original function), and `off` without a handler
does detach. -/
theorem off_with_handler_noop_counterexample :
    EventHandler.off Scenarios.ehW1 1 (some "click") none
        (some (.user 7)) = (Scenarios.ehW1, none) ∧
    EventHandler.dispatchSelf Scenarios.ehW1 1 "click" = [.user 7] ∧
    (EventHandler.cleanupElement Scenarios.ehW1 1).2.isSome = true ∧
    EventHandler.dispatchSelf (EventHandler.cleanupElement Scenarios.ehW1 1).1
        1 "click" = [.user 7] ∧
    EventHandler.dispatchSelf
        (EventHandler.off Scenarios.ehW1 1 (some "click") none none).1
        1 "click" = [] :=
  ⟨by decide, by decide, by decide, by decide, by decide⟩

/-- C10: calling `off(element, event, selector, handler)` with the
originally registered handler function is a silent no-op — the registry
compares `handler` (the user's function) against the stored wrappers
with `===`, which never match — so no error is reported and dispatch
still invokes exactly the same handlers on every element. -/
theorem off_with_original_handler_is_noop (w : EventHandler.EHWorld)
    (i : Nat) (ev : String) (sel : Option String) (hid : Nat)
    (hev : ev ≠ "") :
    (EventHandler.off w i (some ev) sel
        (some (.user hid))).2 = none ∧
    ∀ j t, EventHandler.dispatchSelf
        (EventHandler.off w i (some ev) sel (some (.user hid))).1 j t =
      EventHandler.dispatchSelf w j t := by
  unfold EventHandler.off
  cases hge : EventHandler.getElem w i with
  | none => exact ⟨rfl, fun j t => rfl⟩
  | some e =>
    dsimp only
    rw [if_neg hev]
    refine ⟨rfl, fun j t => ?_⟩
    exact dispatchSelf_congr w _ j t
      ((offSingle_user_preserves w i ev sel hid).1 j)
      ((offSingle_user_preserves w i ev sel hid).2)

theorem off_with_original_handler_is_noop_witness :
    ("click" : String) ≠ "" ∧
    (EventHandler.off Scenarios.ehW1 1 (some "click") none
        (some (.user 7))).2 = none ∧
    EventHandler.dispatchSelf
        (EventHandler.off Scenarios.ehW1 1 (some "click") none
          (some (.user 7))).1 1 "click" =
      EventHandler.dispatchSelf Scenarios.ehW1 1 "click" :=
  ⟨by decide,
   (off_with_original_handler_is_noop Scenarios.ehW1 1 "click" none 7
     (by decide)).1,
   (off_with_original_handler_is_noop Scenarios.ehW1 1 "click" none 7
     (by decide)).2 1 "click"⟩

/-! ## C4 — destroy teardown -/

theorem cleanupElement_no_uid (w : EventHandler.EHWorld) (i : Nat)
    (h : ControlDestroy.elemNoUid w i = true) :
    EventHandler.cleanupElement w i = (w, none) := by
  unfold EventHandler.cleanupElement
  unfold ControlDestroy.elemNoUid at h
  cases hge : EventHandler.getElem w i with
  | none => rfl
  | some e =>
    rw [hge] at h
    dsimp only at h ⊢
    cases he : e.uidEvent with
    | none => rfl
    | some u => rw [he] at h; exact Bool.noConfusion h

theorem dataClearElement_registry (w : EventHandler.EHWorld) (i : Nat) :
    (ControlDestroy.dataClearElement w i).eventRegistry = w.eventRegistry := rfl

theorem dataClearElement_elemNoUid (w : EventHandler.EHWorld) (i j : Nat) :
    ControlDestroy.elemNoUid (ControlDestroy.dataClearElement w i) j =
      ControlDestroy.elemNoUid w j := rfl

theorem detachElem_registry (w : EventHandler.EHWorld) (i : Nat) :
    (ControlDestroy.detachElem w i).eventRegistry = w.eventRegistry := by
  unfold ControlDestroy.detachElem
  cases hge : EventHandler.getElem w i with
  | none => rfl
  | some e =>
    dsimp only
    by_cases ha : e.attached = true
    · rw [if_pos ha]; rfl
    · rw [if_neg ha]

theorem detachElem_elemNoUid (w : EventHandler.EHWorld) (i j : Nat) :
    ControlDestroy.elemNoUid (ControlDestroy.detachElem w i) j =
      ControlDestroy.elemNoUid w j := by
  unfold ControlDestroy.detachElem
  cases hge : EventHandler.getElem w i with
  | none => rfl
  | some e =>
    dsimp only
    by_cases ha : e.attached = true
    · rw [if_pos ha]
      unfold ControlDestroy.elemNoUid
      by_cases hj : j = i
      · subst hj
        rw [getElem_setElem_self, hge]
        rfl
      · rw [getElem_setElem_ne _ _ _ _ hj]
    · rw [if_neg ha]

mutual
theorem destroy_pres (w : EventHandler.EHWorld) (c : ControlDestroy.CtrlNode)
    (h : ∀ j ∈ ControlDestroy.subtreeElems c,
      ControlDestroy.elemNoUid w j = true) :
    (ControlDestroy.destroy w c).2 = none ∧
    (ControlDestroy.destroy w c).1.eventRegistry = w.eventRegistry ∧
    ∀ j, ControlDestroy.elemNoUid (ControlDestroy.destroy w c).1 j =
      ControlDestroy.elemNoUid w j := by
  match c with
  | .mk u elemId children =>
    unfold ControlDestroy.destroy
    have hme : elemId ∈ ControlDestroy.subtreeElems (.mk u elemId children) := by
      unfold ControlDestroy.subtreeElems
      exact List.mem_cons_self _ _
    rw [cleanupElement_no_uid w elemId (h elemId hme)]
    dsimp only
    have hch : ∀ j ∈ ControlDestroy.subtreeElemsList children,
        ControlDestroy.elemNoUid (ControlDestroy.dataClearElement w elemId) j
          = true := by
      intro j hj
      rw [dataClearElement_elemNoUid]
      refine h j ?_
      unfold ControlDestroy.subtreeElems
      exact List.mem_cons_of_mem _ hj
    obtain ⟨h1, h2, h3⟩ := destroyChildren_pres
      (ControlDestroy.dataClearElement w elemId) children hch
    rcases hdc : ControlDestroy.destroyChildren
        (ControlDestroy.dataClearElement w elemId) children with ⟨w3, e3⟩
    rw [hdc] at h1 h2 h3
    dsimp only at h1 h2 h3
    subst h1
    dsimp only
    refine ⟨rfl, ?_, fun j => ?_⟩
    · rw [detachElem_registry, h2, dataClearElement_registry]
    · rw [detachElem_elemNoUid, h3, dataClearElement_elemNoUid]

theorem destroyChildren_pres (w : EventHandler.EHWorld)
    (cs : List ControlDestroy.CtrlNode)
    (h : ∀ j ∈ ControlDestroy.subtreeElemsList cs,
      ControlDestroy.elemNoUid w j = true) :
    (ControlDestroy.destroyChildren w cs).2 = none ∧
    (ControlDestroy.destroyChildren w cs).1.eventRegistry = w.eventRegistry ∧
    ∀ j, ControlDestroy.elemNoUid (ControlDestroy.destroyChildren w cs).1 j =
      ControlDestroy.elemNoUid w j := by
  match cs with
  | [] => exact ⟨rfl, rfl, fun j => rfl⟩
  | c :: rest =>
    unfold ControlDestroy.destroyChildren
    have hc : ∀ j ∈ ControlDestroy.subtreeElems c,
        ControlDestroy.elemNoUid w j = true := by
      intro j hj
      refine h j ?_
      unfold ControlDestroy.subtreeElemsList
      exact List.mem_append_left _ hj
    obtain ⟨h1, h2, h3⟩ := destroy_pres w c hc
    rcases hd : ControlDestroy.destroy w c with ⟨w1, e1⟩
    rw [hd] at h1 h2 h3
    dsimp only at h1 h2 h3
    subst h1
    dsimp only
    have hrest : ∀ j ∈ ControlDestroy.subtreeElemsList rest,
        ControlDestroy.elemNoUid w1 j = true := by
      intro j hj
      rw [h3 j]
      refine h j ?_
      unfold ControlDestroy.subtreeElemsList
      exact List.mem_append_right _ hj
    obtain ⟨g1, g2, g3⟩ := destroyChildren_pres w1 rest hrest
    exact ⟨g1, g2.trans h2, fun j => (g3 j).trans (h3 j)⟩
end

/-- C4 counterexample: a rendered leaf control whose element has one
`click` handler registered through `EventHandler.on`.  Its `destroy()`
throws (the `TypeError` from `off(element)` inside `cleanupElement`),
the element's Event Registry entry survives, and the handler still
fires on dispatch — `destroy` does not leave zero registry entries
rooted at the control's node.  (`destroy` also never touches the
parent's `childControls` array: no such removal exists in lines
368-400 of the source.) -/
theorem destroy_registry_leak_counterexample :
    (ControlDestroy.destroy Scenarios.ehW1 Scenarios.c4Ctrl).2.isSome = true ∧
    (EventHandler.registryGet
        (ControlDestroy.destroy Scenarios.ehW1 Scenarios.c4Ctrl).1 2).isSome
      = true ∧
    EventHandler.dispatchSelf
        (ControlDestroy.destroy Scenarios.ehW1 Scenarios.c4Ctrl).1 1 "click"
      = [.user 7] :=
  ⟨by decide, by decide, by decide⟩

/-- C4: when no element of the control's subtree ever had a handler
registered through `EventHandler` (no `uidEvent` expando anywhere in
the subtree), `destroy()` completes without throwing, leaves the Event
Registry exactly as it was (zero entries rooted at the subtree because
none existed), and calling `destroy()` again — children already
destroyed — also does not throw. -/
theorem destroy_clean_subtree (w : EventHandler.EHWorld)
    (c : ControlDestroy.CtrlNode)
    (h : ∀ j ∈ ControlDestroy.subtreeElems c,
      ControlDestroy.elemNoUid w j = true) :
    (ControlDestroy.destroy w c).2 = none ∧
    (ControlDestroy.destroy w c).1.eventRegistry = w.eventRegistry ∧
    (ControlDestroy.destroy (ControlDestroy.destroy w c).1 c).2 = none := by
  obtain ⟨h1, h2, h3⟩ := destroy_pres w c h
  exact ⟨h1, h2,
    (destroy_pres _ c (fun j hj => (h3 j).trans (h j hj))).1⟩

theorem destroy_clean_subtree_witness :
    (∀ j ∈ ControlDestroy.subtreeElems Scenarios.c4Tree,
      ControlDestroy.elemNoUid Scenarios.ehW2 j = true) ∧
    ((ControlDestroy.destroy Scenarios.ehW2 Scenarios.c4Tree).2 = none ∧
     (ControlDestroy.destroy Scenarios.ehW2 Scenarios.c4Tree).1.eventRegistry
       = Scenarios.ehW2.eventRegistry ∧
     (ControlDestroy.destroy
        (ControlDestroy.destroy Scenarios.ehW2 Scenarios.c4Tree).1
        Scenarios.c4Tree).2 = none) :=
  ⟨by decide, destroy_clean_subtree Scenarios.ehW2 Scenarios.c4Tree (by decide)⟩
